import Mathlib

/-!
Verification of the dapmeet caption-ingestion core (back/src/dapmeet/services):
the wire decoder (decoder.py), the participant-mapping identity resolver
(mapping.py) and the deduplication cache (message_cache.py).

Modelling conventions:
* Python bytes are List Nat (each element a byte value).
* Python strings are List Nat of Unicode code points.
* Python datetimes are Int timestamps in seconds; timedelta(hours=h) is h*3600.
* Python float comparisons between a ratio count/len and a literal like 0.7
  are embedded as exact integer cross-multiplications (10*count < 7*len).
  For the string lengths representable here the IEEE double rounding of
  count/len never crosses such a boundary, so the embedding is exact.
* Fallible code returns Except / Option; dictionary state is embedded as
  association lists with Python dict insert-or-update semantics.
-/

/-- Decidable equality for Except results, for evaluating concrete decode
outcomes. -/
instance instDecEqExcept {e a : Type} [DecidableEq e] [DecidableEq a] :
    DecidableEq (Except e a) := fun x y =>
  match x, y with
  | Except.ok u, Except.ok v =>
    if h : u = v then isTrue (h ▸ rfl) else isFalse (fun hh => h (Except.ok.inj hh))
  | Except.error u, Except.error v =>
    if h : u = v then isTrue (h ▸ rfl) else isFalse (fun hh => h (Except.error.inj hh))
  | Except.ok _, Except.error _ => isFalse (fun hh => Except.noConfusion hh)
  | Except.error _, Except.ok _ => isFalse (fun hh => Except.noConfusion hh)

namespace Py

/-- Code points Python str.isspace holds for (the set str.split and str.strip
with no arguments use): ASCII whitespace, the C0 separators 0x1c-0x1f, NEL,
and the Unicode space/line separators. -/
def pyIsSpace (c : Nat) : Bool :=
  (9 ≤ c && c ≤ 13) || (28 ≤ c && c ≤ 31) || c == 32 || c == 0x85 || c == 0xa0 ||
  c == 0x1680 || (0x2000 ≤ c && c ≤ 0x200a) || c == 0x2028 || c == 0x2029 ||
  c == 0x202f || c == 0x205f || c == 0x3000

/-- Python str.isprintable: false exactly for General_Category Other and
Separator code points, except the ASCII space. Embedded here over the control
ranges, the separator code points, and the common format characters; unassigned
or exotic format code points outside these ranges are treated as printable. -/
def pyIsPrintable (c : Nat) : Bool :=
  if c == 32 then true
  else if c < 32 then false
  else if 0x7f ≤ c && c ≤ 0xa0 then false
  else if c == 0xad then false
  else if (0x600 ≤ c && c ≤ 0x605) || c == 0x61c || c == 0x6dd || c == 0x70f then false
  else if c == 0x1680 || (0x2000 ≤ c && c ≤ 0x200f) then false
  else if (0x2028 ≤ c && c ≤ 0x202e) || c == 0x202f then false
  else if (0x2060 ≤ c && c ≤ 0x2064) || (0x2066 ≤ c && c ≤ 0x206f) then false
  else if c == 0x3000 || c == 0xfeff || (0xfff9 ≤ c && c ≤ 0xfffb) then false
  else if 0xd800 ≤ c && c ≤ 0xdfff then false
  else if (0xfdd0 ≤ c && c ≤ 0xfdef) || c % 0x10000 == 0xfffe || c % 0x10000 == 0xffff then false
  else true

/-- Python str.isdigit, embedded over the ASCII decimal digits (non-ASCII
decimal digits are not modelled; no claim depends on them). -/
def pyIsDigit (c : Nat) : Bool := 48 ≤ c && c ≤ 57

/-- Python str.isalnum, embedded over the ASCII letters and digits (non-ASCII
alphanumerics are not modelled; no claim depends on them). -/
def pyIsAlnum (c : Nat) : Bool :=
  (48 ≤ c && c ≤ 57) || (65 ≤ c && c ≤ 90) || (97 ≤ c && c ≤ 122)

/-- Converts a Lean string literal to the code-point list representation. -/
def pyOfString (s : String) : List Nat := s.data.map Char.toNat

/-- Python str.strip(chars): removes leading and trailing characters drawn
from the given set. -/
def pyStripChars (cs : List Nat) (s : List Nat) : List Nat :=
  ((s.dropWhile (fun c => c ∈ cs)).reverse.dropWhile (fun c => c ∈ cs)).reverse

/-- Python str.strip("\x00"). -/
def pyStripNul (s : List Nat) : List Nat := pyStripChars [0] s

/-- Python str.strip() with no argument: strips whitespace on both ends. -/
def pyStrip (s : List Nat) : List Nat :=
  ((s.dropWhile pyIsSpace).reverse.dropWhile pyIsSpace).reverse

/-- Tests whether the first list starts with the second one. -/
def listStartsWith : List Nat → List Nat → Bool
  | _, [] => true
  | [], _ :: _ => false
  | a :: s, b :: p => a == b && listStartsWith s p

/-- Scans s for the first occurrence of p, reporting the index offset by i;
helper for pyFind. -/
def pyFindIdx (p : List Nat) : List Nat → Nat → Option Nat
  | [], i => if listStartsWith [] p then some i else none
  | a :: t, i =>
    if listStartsWith (a :: t) p then some i else pyFindIdx p t (i + 1)

/-- Python s.find(p): index of the first occurrence, none standing for -1. -/
def pyFind (s p : List Nat) : Option Nat := pyFindIdx p s 0

/-- Python s.find(p, start): first occurrence at or after index start. -/
def pyFindFrom (s p : List Nat) (start : Nat) : Option Nat :=
  match pyFind (s.drop start) p with
  | some j => some (start + j)
  | none => none

/-- Python membership test p in s for strings. -/
def containsSub (s p : List Nat) : Bool := (pyFind s p).isSome

/-- Python str.split() with no argument: splits on whitespace runs, dropping
empty pieces. The cur accumulator holds the current word reversed. -/
def pySplitWsAux : List Nat → List Nat → List (List Nat)
  | [], cur => if cur matches [] then [] else [cur.reverse]
  | c :: t, cur =>
    if pyIsSpace c then
      if cur matches [] then pySplitWsAux t [] else cur.reverse :: pySplitWsAux t []
    else pySplitWsAux t (c :: cur)

/-- Python str.split() with no argument. -/
def pySplitWs (s : List Nat) : List (List Nat) := pySplitWsAux s []

/-- Python s.split(p, 1) when p occurs in s: the parts before and after the
first occurrence. -/
def pySplitOnce (s p : List Nat) : Option (List Nat × List Nat) :=
  match pyFind s p with
  | some i => some (s.take i, s.drop (i + p.length))
  | none => none

/-- Python s.split(p) together with the test len(parts) == 2: succeeds exactly
when p occurs once (scanning left to right without overlap), returning the two
surrounding parts. -/
def pySplitExactlyTwo (s p : List Nat) : Option (List Nat × List Nat) :=
  match pySplitOnce s p with
  | some (a, b) => if containsSub b p then none else some (a, b)
  | none => none

/-- Number of continuation bytes a UTF-8 lead byte announces, or none for an
invalid lead (continuation bytes and 0xc0, 0xc1, 0xf5-0xff). -/
def utf8Conts (b : Nat) : Option Nat :=
  if b < 0x80 then some 0
  else if 0xc2 ≤ b && b ≤ 0xdf then some 1
  else if 0xe0 ≤ b && b ≤ 0xef then some 2
  else if 0xf0 ≤ b && b ≤ 0xf4 then some 3
  else none

/-- Lower bound for the first continuation byte after the given lead. -/
def utf8ContLow (lead : Nat) : Nat :=
  if lead == 0xe0 then 0xa0 else if lead == 0xf0 then 0x90 else 0x80

/-- Upper bound for the first continuation byte after the given lead. -/
def utf8ContHigh (lead : Nat) : Nat :=
  if lead == 0xed then 0x9f else if lead == 0xf4 then 0x8f else 0xbf

/-- Payload bits of a UTF-8 lead byte. -/
def utf8Payload (b : Nat) : Nat :=
  if b < 0x80 then b else if b ≤ 0xdf then b % 32 else if b ≤ 0xef then b % 16 else b % 8

/-- Consumes up to n continuation bytes after a lead byte, the first one
restricted to the lead-specific range. Returns the decoded code point and the
unconsumed remainder, or none together with the remainder starting at the
offending byte (the maximal-subpart policy CPython uses for errors). -/
def utf8Run (lead : Nat) (first : Bool) (acc : Nat) : Nat → List Nat → Option Nat × List Nat
  | 0, l => (some acc, l)
  | _ + 1, [] => (none, [])
  | n + 1, c :: rest =>
    let lo := if first then utf8ContLow lead else 0x80
    let hi := if first then utf8ContHigh lead else 0xbf
    if lo ≤ c && c ≤ hi then utf8Run lead false (acc * 64 + c % 64) n rest
    else (none, c :: rest)

/-- Decoding loop for Python bytes.decode("utf-8", errors=...): repl selects
between errors="replace" (emit U+FFFD per maximal invalid subpart) and
errors="ignore". The fuel argument bounds the number of outer iterations; each
iteration consumes at least one byte, so fuel = length is always enough. -/
def pyUtf8DecodeLoop (repl : Bool) : Nat → List Nat → List Nat
  | 0, _ => []
  | _ + 1, [] => []
  | fuel + 1, b :: rest =>
    if b < 0x80 then b :: pyUtf8DecodeLoop repl fuel rest
    else
      match utf8Conts b with
      | none => (if repl then [0xfffd] else []) ++ pyUtf8DecodeLoop repl fuel rest
      | some n =>
        match utf8Run b true (utf8Payload b) n rest with
        | (some cp, remaining) => cp :: pyUtf8DecodeLoop repl fuel remaining
        | (none, remaining) =>
          (if repl then [0xfffd] else []) ++ pyUtf8DecodeLoop repl fuel remaining

/-- Python data.decode("utf-8", errors="replace"). -/
def pyDecodeUtf8Replace (data : List Nat) : List Nat :=
  pyUtf8DecodeLoop true data.length data

/-- Python data.decode("utf-8", errors="ignore"). -/
def pyDecodeUtf8Ignore (data : List Nat) : List Nat :=
  pyUtf8DecodeLoop false data.length data

/-- Fuel-driven recursion for firstOccs; the list shrinks at every step, so
fuel equal to the length always suffices and the fuel-exhaustion branch is
never reached from firstOccs. -/
def firstOccsAux : Nat → List Nat → List Nat
  | 0, _ => []
  | _ + 1, [] => []
  | fuel + 1, c :: rest => c :: firstOccsAux fuel (rest.filter (fun x => x ≠ c))

/-- First occurrences of each distinct element, in order of appearance: the
iteration order of a Python dict built by counting characters. -/
def firstOccs (l : List Nat) : List Nat := firstOccsAux l.length l

end Py

namespace DecoderService

open Py

/-- Python max(char_counts.values()) for the character-count dict of s. -/
def charMaxCount (s : List Nat) : Nat :=
  ((firstOccs s).map (fun c => s.count c)).foldr max 0

/-- Python max(char_counts, key=char_counts.get): the first key (in insertion
order, i.e. first-occurrence order) achieving the maximal count. -/
def mostCommonChar (s : List Nat) : Nat :=
  (((firstOccs s).find? (fun c => s.count c == charMaxCount s))).getD 0

/-- The characters of the Python literal used as the allowed identifier
character set, slash backslash hyphen underscore. -/
def slashSet : List Nat := [47, 92, 45, 95]

/-- The characters of the Python literal slash backslash hyphen underscore
at-sign dot. -/
def identSet : List Nat := [47, 92, 45, 95, 64, 46]

/-- The sentence-punctuation characters dot bang question comma semicolon
colon at-sign (text_endings in the source). -/
def textEndings : List Nat := [46, 33, 63, 44, 59, 58, 64]

/-- DecoderService._is_valid_device_id: the validity heuristic deciding
whether a candidate string looks like a device id rather than message text or
garbage. Fraction comparisons are embedded as exact cross-multiplications. -/
def is_valid_device_id (s : List Nat) : Bool :=
  if s = [] then false
  else
    let printableCount := (s.filter (fun c => pyIsPrintable c || c ∈ slashSet)).length
    if 10 * printableCount < 7 * s.length then false
    else
      let replCount := s.count 0xfffd
      if 10 * replCount > 3 * s.length then false
      else
        let controlChars := (s.filter (fun c => c < 32 && c ∉ [10, 13, 9])).length
        if 5 * controlChars > s.length then false
        else if s.length > 200 then false
        else
          let hasValid := s.any (fun c => pyIsAlnum c || c ∈ identSet)
          if ¬hasValid then false
          else
            let spaceCount := s.count 32
            if s.length > 20 ∧ spaceCount > s.length / 10 then false
            else if s.length > 10 ∧ s.getLastD 0 ∈ textEndings ∧ spaceCount > 0 then false
            else if (pySplitWs s).length > 3 ∧ s.length < 100 then false
            else if s.length > 3 ∧ 2 * charMaxCount s > s.length ∧ charMaxCount s > 3 ∧
                mostCommonChar s ∉ identSet then false
            else true

/-- Bytes of the Python literal for the word spaces followed by a slash. -/
def spacesLit : List Nat := Py.pyOfString "spaces/"

/-- Bytes of the Python literal slash devices slash. -/
def devicesLit : List Nat := Py.pyOfString "/devices/"

/-- Protobuf varint reader used by extract_device_id_struct: mirrors the
5-iteration loop of the source, accumulating 7-bit groups little-endian and
returning the value and the index past the varint. -/
def readVarintAux (data : List Nat) : Nat → Nat → Nat → Nat → Nat × Nat
  | idx, _, acc, 0 => (acc, idx)
  | idx, shift, acc, fuel + 1 =>
    if data.length ≤ idx then (acc, idx)
    else
      let b := data.getD idx 0
      let acc2 := acc ||| ((b &&& 0x7f) <<< shift)
      if b &&& 0x80 == 0 then (acc2, idx + 1)
      else readVarintAux data (idx + 1) (shift + 7) acc2 fuel

/-- DecoderService._extract_device_id, structural approach: the nested
length-delimited block tag 10 / varint length / tag 10 / length 31 / 31-byte
string at the very start of the buffer, accepted when the decoded string
contains spaces/ or /devices/. -/
def extract_device_id_struct (data : List Nat) : Option (List Nat × Nat) :=
  if 35 ≤ data.length then
    if data.getD 0 0 = 10 then
      if data.length ≤ 1 then none
      else
        let v := readVarintAux data 1 0 0 5
        let nestedStart := v.2
        if nestedStart < data.length ∧ data.getD nestedStart 0 = 10 then
          let devLenIdx := nestedStart + 1
          if devLenIdx < data.length then
            let devLen := data.getD devLenIdx 0
            if devLen = 31 then
              let strStart := devLenIdx + 1
              let strEnd := strStart + devLen
              if strEnd ≤ data.length then
                let deviceId := Py.pyDecodeUtf8Replace ((data.drop strStart).take devLen)
                if deviceId ≠ [] ∧
                    (Py.containsSub deviceId spacesLit ∨ Py.containsSub deviceId devicesLit) then
                  some (deviceId, strEnd)
                else none
              else none
            else none
          else none
        else none
    else none
  else none

/-- The while loop of approach 1: advances idx until it reaches limit or hits
the target byte, returning the final idx (which is the limit when nothing was
found before it). The fuel argument only bounds the iteration count; callers
pass fuel at least limit - idx, making the exhaustion branch unreachable. -/
def scanFor (data : List Nat) (target limit : Nat) : Nat → Nat → Nat
  | 0, idx => idx
  | fuel + 1, idx =>
    if idx < limit then
      if data.getD idx 0 = target then idx else scanFor data target limit fuel (idx + 1)
    else idx

/-- DecoderService._extract_device_id, approach 1: scan for tag byte 3 within
100 bytes of startIdx, read a direct length byte and that many string bytes,
accept under the validity heuristic. Mirrors the source quirk that when no
byte 3 occurs before the search limit but the limit is inside the buffer, the
byte at the limit is treated as if it were the tag. -/
def approach1 (data : List Nat) (startIdx : Nat) : Option (List Nat × Nat) :=
  let limit := min (startIdx + 100) data.length
  let idx := scanFor data 3 limit limit startIdx
  if idx < data.length then
    if data.length ≤ idx + 1 then none
    else
      let strLen := data.getD (idx + 1) 0
      if idx + 2 + strLen ≤ data.length ∧ 0 < strLen ∧ strLen < 1000 then
        let s := Py.pyStripNul (Py.pyDecodeUtf8Replace ((data.drop (idx + 2)).take strLen))
        if s ≠ [] ∧ is_valid_device_id s then some (s, idx + 2 + strLen) else none
      else none
  else none

/-- The while loop of approach 2: scan for tag byte 98 before limit; on a tag,
read a length byte, skip lengths over 200 by rescanning from the next byte,
and otherwise decode, strip and validate the candidate. Without a hit the scan
resumes one byte past the length byte, exactly as the source loop does. -/
def scanTag98 (data : List Nat) (limit : Nat) : Nat → Nat → Option (List Nat × Nat)
  | 0, _ => none
  | fuel + 1, idx =>
    if idx < limit then
      if data.getD idx 0 = 98 then
        if data.length ≤ idx + 1 then none
        else
          let strLen := data.getD (idx + 1) 0
          if 200 < strLen then scanTag98 data limit fuel (idx + 1)
          else if idx + 2 + strLen ≤ data.length ∧ 0 < strLen then
            let s := Py.pyStrip (Py.pyStripNul
              (Py.pyDecodeUtf8Replace ((data.drop (idx + 2)).take strLen)))
            if s ≠ [] ∧ is_valid_device_id s then some (s, idx + 2 + strLen)
            else scanTag98 data limit fuel (idx + 3)
          else scanTag98 data limit fuel (idx + 3)
      else scanTag98 data limit fuel (idx + 1)
    else none

/-- DecoderService._extract_device_id, approach 2: tag byte 98 within 200
bytes of startIdx. -/
def approach2 (data : List Nat) (startIdx : Nat) : Option (List Nat × Nat) :=
  scanTag98 data (min (startIdx + 200) data.length) (min (startIdx + 200) data.length) startIdx

/-- The while loop of approach 3: same shape as the approach 2 loop but for
tag byte 10, additionally requiring the candidate to be longer than 2. -/
def scanTag10 (data : List Nat) (limit : Nat) : Nat → Nat → Option (List Nat × Nat)
  | 0, _ => none
  | fuel + 1, idx =>
    if idx < limit then
      if data.getD idx 0 = 10 then
        if data.length ≤ idx + 1 then none
        else
          let strLen := data.getD (idx + 1) 0
          if 200 < strLen then scanTag10 data limit fuel (idx + 1)
          else if idx + 2 + strLen ≤ data.length ∧ 0 < strLen then
            let s := Py.pyStrip (Py.pyStripNul
              (Py.pyDecodeUtf8Replace ((data.drop (idx + 2)).take strLen)))
            if s ≠ [] ∧ 2 < s.length ∧ is_valid_device_id s then some (s, idx + 2 + strLen)
            else scanTag10 data limit fuel (idx + 3)
          else scanTag10 data limit fuel (idx + 3)
      else scanTag10 data limit fuel (idx + 1)
    else none

/-- DecoderService._extract_device_id, approach 3: tag byte 10 within 150
bytes of startIdx. -/
def approach3 (data : List Nat) (startIdx : Nat) : Option (List Nat × Nat) :=
  scanTag10 data (min (startIdx + 150) data.length) (min (startIdx + 150) data.length) startIdx

/-- Approach 4a, first stage: scan for the first byte 16 at or after the
start of the spaces/ match and cut the candidate there. -/
def scanFirst16 (data : List Nat) (strStart stop : Nat) : Nat → Nat → Option (List Nat)
  | 0, _ => none
  | fuel + 1, idx =>
    if idx < stop then
      if data.getD idx 0 = 16 then
        some (Py.pyStrip (Py.pyStripNul
          (Py.pyDecodeUtf8Replace ((data.drop strStart).take (idx - strStart)))))
      else scanFirst16 data strStart stop fuel (idx + 1)
    else none

/-- Approach 4a, second stage: walk up to 20 positions after the /devices/
match looking for a byte 16 boundary; the source also tests for a non-digit
non-identifier character but only acts (cuts and breaks) on the byte 16. -/
def scan4aDigits (data beforeData beforeStr : List Nat) (strStartBytes stop : Nat) :
    Nat → Nat → Option (List Nat)
  | 0, _ => none
  | fuel + 1, idx =>
    if idx < stop then
      if idx < beforeData.length ∧
          (beforeData.getD idx 0 = 16 ∨
            (¬(Py.pyIsDigit (beforeStr.getD idx 0) = true) ∧ beforeStr.getD idx 0 ∉ identSet)) then
        if beforeData.getD idx 0 = 16 then
          some (Py.pyStrip (Py.pyStripNul
            (Py.pyDecodeUtf8Replace ((data.drop strStartBytes).take (idx - strStartBytes)))))
        else scan4aDigits data beforeData beforeStr strStartBytes stop fuel (idx + 1)
      else scan4aDigits data beforeData beforeStr strStartBytes stop fuel (idx + 1)
    else none

/-- Truthiness of an optional string candidate, as Python sees it: set and
non-empty. -/
def truthyOpt : Option (List Nat) → Bool
  | some s => !s.isEmpty
  | none => false

/-- DecoderService._extract_device_id, approach 4a: decode the region before
the start marker, look for the literal spaces/, and locate the end of the
candidate at the next byte 16, at a byte 16 shortly after a /devices/ match,
or as the digit run following /devices/ (the source then rebuilds the path
with a doubled /devices/ segment). The surviving candidate is filtered to
printable and identifier characters and must pass the validity heuristic. -/
def approach4a (data : List Nat) (startIdx : Nat) : Option (List Nat × Nat) :=
  let beforeData := data.take startIdx
  let beforeStr := Py.pyDecodeUtf8Ignore beforeData
  if Py.containsSub beforeStr spacesLit then
    match Py.pyFind beforeData spacesLit with
    | some strStartBytes =>
      let cand0 := scanFirst16 data strStartBytes startIdx startIdx strStartBytes
      let cand1 :=
        if truthyOpt cand0 then cand0
        else if Py.containsSub beforeStr devicesLit then
          match Py.pyFindFrom beforeStr devicesLit strStartBytes with
          | some devicesPos =>
            let dnStart := devicesPos + devicesLit.length
            let stop := min (dnStart + 20) beforeStr.length
            let cand2 := scan4aDigits data beforeData beforeStr strStartBytes stop stop dnStart
            if truthyOpt cand2 then cand2
            else
              let remainingStr := beforeStr.drop strStartBytes
              if Py.containsSub remainingStr devicesLit then
                match Py.pySplitOnce remainingStr devicesLit with
                | some (p0, p1) =>
                  let devicePath := p0 ++ devicesLit
                  let deviceNum := p1.takeWhile Py.pyIsDigit
                  if deviceNum ≠ [] then some (devicePath ++ devicesLit ++ deviceNum)
                  else cand2
                | none => cand2
              else cand2
          | none => cand0
        else cand0
      match cand1 with
      | some c =>
        if c ≠ [] then
          let clean := c.filter (fun ch => Py.pyIsPrintable ch || ch ∈ identSet)
          if clean ≠ [] ∧ is_valid_device_id clean then some (clean, startIdx) else none
        else none
      | none => none
    | none => none
  else none

/-- Approach 4b candidate start positions: 0 followed by startIdx minus each
of 10, 20, 30, 50 and 100 (clamped at 0), deduplicated, keeping only
positions before startIdx for the extra offsets. -/
def positions4b (startIdx : Nat) : List Nat :=
  [10, 20, 30, 50, 100].foldl
    (fun acc off =>
      let pos := startIdx - off
      if pos < startIdx ∧ pos ∉ acc then acc ++ [pos] else acc)
    [0]

/-- The inner loop of approach 4b: try every byte 16 boundary between strStart
and startIdx; a candidate of plausible length containing spaces/ or /devices/
is returned when valid, or cleaned around its unique /devices/ segment and
returned when the cleaned form is valid. -/
def try4bBoundary (data : List Nat) (strStart startIdx : Nat) :
    Nat → Nat → Option (List Nat × Nat)
  | 0, _ => none
  | fuel + 1, bIdx =>
    if bIdx < startIdx then
      if data.getD bIdx 0 = 16 then
        if strStart < bIdx ∧ bIdx - strStart < 300 ∧ 10 < bIdx - strStart then
          let s := Py.pyStrip (Py.pyStripNul
            (Py.pyDecodeUtf8Replace ((data.drop strStart).take (bIdx - strStart))))
          if s ≠ [] ∧ (Py.containsSub s spacesLit ∨ Py.containsSub s devicesLit) then
            if is_valid_device_id s then some (s, bIdx)
            else if Py.containsSub s devicesLit then
              match Py.pySplitExactlyTwo s devicesLit with
              | some (p0, p1) =>
                let devicePath := p0 ++ devicesLit
                let deviceNum := (p1.filter (fun c => Py.pyIsAlnum c || c ∈ identSet)).take 20
                if deviceNum ≠ [] then
                  let clean := devicePath ++ deviceNum
                  if is_valid_device_id clean then some (clean, bIdx)
                  else try4bBoundary data strStart startIdx fuel (bIdx + 1)
                else try4bBoundary data strStart startIdx fuel (bIdx + 1)
              | none => try4bBoundary data strStart startIdx fuel (bIdx + 1)
            else try4bBoundary data strStart startIdx fuel (bIdx + 1)
          else try4bBoundary data strStart startIdx fuel (bIdx + 1)
        else try4bBoundary data strStart startIdx fuel (bIdx + 1)
      else try4bBoundary data strStart startIdx fuel (bIdx + 1)
    else none

/-- DecoderService._extract_device_id, approach 4b: try each candidate start
position in order, scanning all byte 16 boundaries from it; the first
successful candidate wins. -/
def approach4b (data : List Nat) (startIdx : Nat) : Option (List Nat × Nat) :=
  (positions4b startIdx).foldl
    (fun acc strStart =>
      match acc with
      | some r => some r
      | none =>
        if startIdx ≤ strStart then none
        else try4bBoundary data strStart startIdx startIdx strStart)
    none

/-- The while loop of approach 4c: like the approach 2 loop but bounded by
startIdx, also rejecting zero lengths, and requiring the candidate to end at
or before startIdx. -/
def scan4c (data : List Nat) (tag startIdx : Nat) : Nat → Nat → Option (List Nat × Nat)
  | 0, _ => none
  | fuel + 1, idx =>
    if idx < startIdx then
      if data.getD idx 0 = tag then
        if data.length ≤ idx + 1 then none
        else
          let strLen := data.getD (idx + 1) 0
          if 200 < strLen ∨ strLen = 0 then scan4c data tag startIdx fuel (idx + 1)
          else if idx + 2 + strLen ≤ data.length ∧ idx + 2 + strLen ≤ startIdx then
            let s := Py.pyStrip (Py.pyStripNul
              (Py.pyDecodeUtf8Replace ((data.drop (idx + 2)).take strLen)))
            if s ≠ [] ∧ is_valid_device_id s then some (s, idx + 2 + strLen)
            else scan4c data tag startIdx fuel (idx + 3)
          else scan4c data tag startIdx fuel (idx + 3)
      else scan4c data tag startIdx fuel (idx + 1)
    else none

/-- DecoderService._extract_device_id, approach 4c: rescan the up to 100 bytes
before the start marker for tag bytes 10 then 98. -/
def approach4c (data : List Nat) (startIdx : Nat) : Option (List Nat × Nat) :=
  match scan4c data 10 startIdx startIdx (startIdx - 100) with
  | some r => some r
  | none => scan4c data 98 startIdx startIdx (startIdx - 100)

/-- DecoderService._extract_device_id: the full heuristic chain. Returns the
candidate (none when every approach failed) together with the index just past
the device id (startIdx when nothing was found). -/
def extract_device_id (data : List Nat) (startIdx : Nat) : Option (List Nat) × Nat :=
  match extract_device_id_struct data with
  | some (s, e) => (some s, e)
  | none =>
    match approach1 data startIdx with
    | some (s, e) => (some s, e)
    | none =>
      match approach2 data startIdx with
      | some (s, e) => (some s, e)
      | none =>
        match approach3 data startIdx with
        | some (s, e) => (some s, e)
        | none =>
          if 0 < startIdx then
            match approach4a data startIdx with
            | some (s, e) => (some s, e)
            | none =>
              match approach4b data startIdx with
              | some (s, e) => (some s, e)
              | none =>
                match approach4c data startIdx with
                | some (s, e) => (some s, e)
                | none => (none, startIdx)
          else (none, startIdx)

/-- DecoderService._find_data_start: first byte 16 among the first
length - 1 bytes; data begins two bytes later when a 1 follows, one byte
later otherwise. -/
def find_data_start (data : List Nat) : Option Nat :=
  match (List.range (data.length - 1)).find? (fun i => data.getD i 0 == 16) with
  | some i => if i + 1 < data.length ∧ data.getD (i + 1) 0 = 1 then some (i + 2) else some (i + 1)
  | none => none

/-- Varint skipper of _extract_text: consumes up to 5 bytes, stopping after
the first byte with a clear continuation bit, and returns the index past the
consumed bytes. -/
def skipVarint (data : List Nat) : Nat → Nat → Nat
  | idx, 0 => idx
  | idx, fuel + 1 =>
    if data.length ≤ idx then idx
    else if data.getD idx 0 &&& 0x80 == 0 then idx + 1
    else skipVarint data (idx + 1) fuel

/-- Scan for the first occurrence of a byte value in the index range
[idx, stop). -/
def scanByte (data : List Nat) (target stop : Nat) : Nat → Nat → Option Nat
  | 0, _ => none
  | fuel + 1, idx =>
    if idx < stop then
      if data.getD idx 0 = target then some idx else scanByte data target stop fuel (idx + 1)
    else none

/-- The first loop of _extract_text: find a tag byte 24, skip its varint
value, and require a tag byte 50 within the following 10 bytes; the position
after that tag is the prospective text start. -/
def textScan24 (data : List Nat) : Nat → Nat → Option Nat
  | 0, _ => none
  | fuel + 1, i =>
    if i < data.length - 1 then
      if data.getD i 0 = 24 then
        let tsIdx := skipVarint data (i + 1) 5
        if tsIdx < data.length then
          match scanByte data 50 (min (tsIdx + 10) data.length) (min (tsIdx + 10) data.length)
              tsIdx with
          | some k => some (k + 1)
          | none => textScan24 data fuel (i + 1)
        else textScan24 data fuel (i + 1)
      else textScan24 data fuel (i + 1)
    else none

/-- The fallback loop of _extract_text: find a tag byte 50 directly, accepted
only when the following length byte lies in (0, 200]. -/
def textScan50 (data : List Nat) : Nat → Nat → Option Nat
  | 0, _ => none
  | fuel + 1, i =>
    if i < data.length - 1 then
      if data.getD i 0 = 50 ∧ i + 1 < data.length then
        let pl := data.getD (i + 1) 0
        if 0 < pl ∧ pl ≤ 200 then some (i + 1) else textScan50 data fuel (i + 1)
      else textScan50 data fuel (i + 1)
    else none

/-- DecoderService._extract_text: locate the text field after searchFromIdx,
read its direct length byte, decode as UTF-8 with replacement, drop
non-printable characters except newline, carriage return and tab, trim, and
accept only a non-empty result. -/
def extract_text (data : List Nat) (searchFromIdx : Nat) : Option (List Nat) :=
  let textStart :=
    match textScan24 data data.length searchFromIdx with
    | some t => some t
    | none => textScan50 data data.length searchFromIdx
  match textStart with
  | none => none
  | some textStart =>
    if data.length ≤ textStart then none
    else
      let strLen := data.getD textStart 0
      if strLen = 0 ∨ 200 < strLen then none
      else if textStart + 1 + strLen ≤ data.length then
        let text := Py.pyDecodeUtf8Replace ((data.drop (textStart + 1)).take strLen)
        let textClean := Py.pyStrip (text.filter (fun c => Py.pyIsPrintable c || c ∈ [10, 13, 9]))
        if textClean ≠ [] then some textClean else none
      else none

/-- The four byte patterns bracketing the message id. -/
def MESSAGE_ID_PATTERNS : List (List Nat) :=
  [[24, 0, 32, 1, 45, 0], [24, 0, 1, 32, 1, 45, 0], [24, 0, 45, 0], [24, 0, 1, 45, 0]]

/-- Inner loop of _find_pattern: the pattern matches at position i when every
pattern byte is in bounds and equal. -/
def matchAt (data : List Nat) : Nat → List Nat → Bool
  | _, [] => true
  | i, b :: p => i < data.length && data.getD i 0 == b && matchAt data (i + 1) p

/-- DecoderService._find_pattern: index of the first occurrence of the byte
pattern at or after startIdx (an empty pattern matches at startIdx). -/
def find_pattern (data pattern : List Nat) (startIdx : Nat) : Option Nat :=
  if pattern = [] then some startIdx
  else
    (List.range' startIdx (data.length + 1 - pattern.length - startIdx)).find?
      (fun i => matchAt data i pattern)

/-- Little-endian 32-bit read, struct.unpack of 4 bytes at position p. -/
def readLE32 (data : List Nat) (p : Nat) : Nat :=
  data.getD p 0 + data.getD (p + 1) 0 * 256 + data.getD (p + 2) 0 * 65536 +
    data.getD (p + 3) 0 * 16777216

/-- Pattern phase of _extract_message_id: patterns are tried in order; a
pattern whose first occurrence has at least 4 bytes after it yields the
message id there (and the version from 4 further bytes when present, else 1);
otherwise the next pattern is tried. -/
def messageIdFromPatterns (data : List Nat) (startIdx : Nat) : List (List Nat) → Option (Nat × Nat)
  | [] => none
  | p :: rest =>
    match find_pattern data p startIdx with
    | some idx =>
      let pEnd := idx + p.length
      if pEnd + 4 ≤ data.length then
        if pEnd + 8 ≤ data.length then some (readLE32 data pEnd, readLE32 data (pEnd + 4))
        else some (readLE32 data pEnd, 1)
      else messageIdFromPatterns data startIdx rest
    | none => messageIdFromPatterns data startIdx rest

/-- Fallback phase of _extract_message_id: scan [idx, stop) for a byte 24
followed by at least 4 bytes and read those as the message id. -/
def fallbackScan24 (data : List Nat) (stop : Nat) : Nat → Nat → Option Nat
  | 0, _ => none
  | fuel + 1, idx =>
    if idx < stop then
      if data.getD idx 0 = 24 ∧ idx + 5 ≤ data.length then some (readLE32 data (idx + 1))
      else fallbackScan24 data stop fuel (idx + 1)
    else none

/-- DecoderService._extract_message_id: pattern phase, then the fallback scan
within 100 bytes, else no message id; the version defaults to 1 outside the
eight-byte pattern case. -/
def extract_message_id (data : List Nat) (startIdx : Nat) : Option Nat × Nat :=
  match messageIdFromPatterns data startIdx MESSAGE_ID_PATTERNS with
  | some (m, v) => (some m, v)
  | none =>
    match fallbackScan24 data (min (startIdx + 100) data.length)
        (min (startIdx + 100) data.length) startIdx with
    | some m => (some m, 1)
    | none => (none, 1)

/-- Pattern loop of _extract_lang_id: the byte following the first pattern
found, provided it is in bounds, else the next pattern. -/
def langFromPatterns (data : List Nat) (startIdx : Nat) : List (List Nat) → Option Nat
  | [] => none
  | p :: rest =>
    match find_pattern data p startIdx with
    | some idx =>
      if idx + p.length < data.length then some (data.getD (idx + p.length) 0)
      else langFromPatterns data startIdx rest
    | none => langFromPatterns data startIdx rest

/-- DecoderService._extract_lang_id. -/
def extract_lang_id (data : List Nat) (startIdx : Nat) : Option Nat :=
  langFromPatterns data startIdx [[64, 0, 72], [64, 0, 80]]

/-- The decoded event dictionary decode_raw_data produces. -/
structure Decoded where
  device_id : List Nat
  message_id : Option Nat
  text : List Nat
  version : Nat
  lang_id : Option Nat

instance : DecidableEq Decoded := fun a b =>
  decidable_of_iff
    (a.device_id = b.device_id ∧ a.message_id = b.message_id ∧ a.text = b.text ∧
      a.version = b.version ∧ a.lang_id = b.lang_id)
    (by cases a; cases b; simp)

/-- Every way decode_raw_data can terminate abnormally. The first six mirror
the ValueError raise sites; indexError mirrors the uncaught IndexError the
gzip stage hits reading data[4] on a 4-byte payload whose last byte is 0x1f. -/
inductive DecodeErr where
  | base64Failed
  | emptyAfterBase64
  | gzipTooShort
  | gzipFailed
  | protobufTooShort
  | structureNotFound
  | indexError

/-- Numeric tag of a DecodeErr constructor, used only to decide equality. -/
def DecodeErr.tag : DecodeErr → Nat
  | .base64Failed => 0
  | .emptyAfterBase64 => 1
  | .gzipTooShort => 2
  | .gzipFailed => 3
  | .protobufTooShort => 4
  | .structureNotFound => 5
  | .indexError => 6

instance : DecidableEq DecodeErr := fun a b =>
  decidable_of_iff (a.tag = b.tag)
    (by cases a <;> cases b <;> simp [DecodeErr.tag])

/-- The three stages of the documented decode-error taxonomy. -/
inductive ErrorStage where
  | base64
  | decompress
  | structureStage

/-- Numeric tag of an ErrorStage constructor, used only to decide equality. -/
def ErrorStage.tag : ErrorStage → Nat
  | .base64 => 0
  | .decompress => 1
  | .structureStage => 2

instance : DecidableEq ErrorStage := fun a b =>
  decidable_of_iff (a.tag = b.tag)
    (by cases a <;> cases b <;> simp [ErrorStage.tag])

/-- Classification of each failure as one of the documented stages; the
IndexError is not a decode error and has no stage. -/
def DecodeErr.stage? : DecodeErr → Option ErrorStage
  | .base64Failed => some .base64
  | .emptyAfterBase64 => some .base64
  | .gzipTooShort => some .decompress
  | .gzipFailed => some .decompress
  | .protobufTooShort => some .structureStage
  | .structureNotFound => some .structureStage
  | .indexError => none

/-- DecoderService._decompress_gzip, parameterized by the gzip.decompress
library routine g (none standing for a raised exception): decompress on a
magic header at offset 0 or offset 3, otherwise pass the data through. On a
4-byte input with data[3] = 0x1f the source reads data[4] out of bounds. -/
def decompress_gzip (g : List Nat → Option (List Nat)) (data : List Nat) :
    Except DecodeErr (List Nat) :=
  if data.length < 2 then .error .gzipTooShort
  else if data.getD 0 0 = 0x1f ∧ data.getD 1 0 = 0x8b then
    match g data with
    | some r => .ok r
    | none => .error .gzipFailed
  else if 3 < data.length then
    if data.getD 3 0 = 0x1f then
      if 4 < data.length then
        if data.getD 4 0 = 0x8b then
          match g (data.drop 3) with
          | some r => .ok r
          | none => .error .gzipFailed
        else .ok data
      else .error .indexError
    else .ok data
  else .ok data

/-- DecoderService._decode_protobuf: require at least 10 bytes, locate the
start marker, then run the field extractors and assemble the event (empty
strings for missing device id or text, version 0 coerced to 1 by the
version-or-1 idiom). -/
def decode_protobuf (data : List Nat) : Except DecodeErr Decoded :=
  if data.length < 10 then .error .protobufTooShort
  else
    match find_data_start data with
    | none => .error .structureNotFound
    | some startIdx =>
      let dev := extract_device_id data startIdx
      let deviceEnd := dev.2
      let text? := extract_text data (if 0 < deviceEnd then deviceEnd else startIdx)
      let searchStart := if startIdx < deviceEnd then deviceEnd else startIdx
      let mv := extract_message_id data searchStart
      let langId? := extract_lang_id data searchStart
      .ok
        { device_id := dev.1.getD []
          message_id := mv.1
          text := text?.getD []
          version := if mv.2 = 0 then 1 else mv.2
          lang_id := langId? }

/-- Value of a base64 alphabet character, none for every other byte. -/
def b64Char (c : Nat) : Option Nat :=
  if 65 ≤ c ∧ c ≤ 90 then some (c - 65)
  else if 97 ≤ c ∧ c ≤ 122 then some (c - 97 + 26)
  else if 48 ≤ c ∧ c ≤ 57 then some (c - 48 + 52)
  else if c = 43 then some 62
  else if c = 47 then some 63
  else none

/-- CPython binascii.a2b_base64 in non-strict mode: characters outside the
alphabet are skipped; a padding character with quad position at least 2 ends
decoding once the quad position plus the padding run reaches 4; a final quad
position of 1 or of 2 and 3 without closing padding is an error (none). The
quad position, the pending bits and the padding run are threaded through. -/
def a2bBase64 : List Nat → Nat → Nat → Nat → Option (List Nat)
  | [], quadPos, _, _ => if quadPos = 0 then some [] else none
  | c :: rest, quadPos, leftchar, pads =>
    if c = 61 then
      if 2 ≤ quadPos ∧ 4 ≤ quadPos + (pads + 1) then some []
      else a2bBase64 rest quadPos leftchar (if 2 ≤ quadPos then pads + 1 else pads)
    else
      match b64Char c with
      | none => a2bBase64 rest quadPos leftchar pads
      | some v =>
        match quadPos with
        | 0 => a2bBase64 rest 1 v 0
        | 1 => (a2bBase64 rest 2 (v % 16) 0).map (fun t => (leftchar * 4 + v / 16) :: t)
        | 2 => (a2bBase64 rest 3 (v % 4) 0).map (fun t => (leftchar * 16 + v / 4) :: t)
        | _ => (a2bBase64 rest 0 0 0).map (fun t => (leftchar * 64 + v) :: t)

/-- Python base64.b64decode on a str argument: the string must be ASCII and
is then decoded by the non-strict binascii routine. -/
def b64decode (s : List Nat) : Option (List Nat) :=
  if s.any (fun c => 127 < c) then none
  else a2bBase64 s 0 0 0

/-- DecoderService.decode_raw_data, parameterized by the gzip.decompress
routine: base64 decode (failure and an empty result are errors), the gzip
stage, then protobuf field extraction. The outer except block re-raises,
so every inner failure propagates unchanged. -/
def decode_raw_data (g : List Nat → Option (List Nat)) (raw : List Nat) :
    Except DecodeErr Decoded :=
  match b64decode raw with
  | none => .error .base64Failed
  | some bs =>
    if bs.length = 0 then .error .emptyAfterBase64
    else
      match decompress_gzip g bs with
      | .error e => .error e
      | .ok dec => decode_protobuf dec

end DecoderService

namespace PyDict

/-- Lookup in an association-list rendering of a Python dict (first matching
key; states built by aset and adel never hold duplicate keys). -/
def alookup {β : Type} : List (List Nat × β) → List Nat → Option β
  | [], _ => none
  | (k2, v) :: t, k => if k2 = k then some v else alookup t k

/-- Python dict assignment d[k] = v: update in place, else append. -/
def aset {β : Type} : List (List Nat × β) → List Nat → β → List (List Nat × β)
  | [], k, v => [(k, v)]
  | (k2, v2) :: t, k, v => if k2 = k then (k2, v) :: t else (k2, v2) :: aset t k v

/-- Python del d[k] (used only where the source guards with a membership test
or may assume presence): removes the key. On duplicate-free states removing
all occurrences and removing the key coincide. -/
def adel {β : Type} (l : List (List Nat × β)) (k : List Nat) : List (List Nat × β) :=
  l.filter (fun p => p.1 ≠ k)

end PyDict

namespace MessageCacheService

/-- One cached message: the recorded text, version and processing time. -/
structure CacheEntry where
  text : List Nat
  version : Int
  processed_at : Int

instance : DecidableEq CacheEntry := fun a b =>
  decidable_of_iff
    (a.text = b.text ∧ a.version = b.version ∧ a.processed_at = b.processed_at)
    (by cases a; cases b; simp)

/-- The cache dictionary: meeting id to composite key to entry. -/
abbrev CacheState := List (List Nat × List (List Nat × CacheEntry))

/-- The ttl_hours of the process-wide MessageCacheService instance (the
constructor default, 1 hour). -/
def ttl_hours : Int := 1

/-- Decimal digit string of a natural number, Python str(n). -/
def natDecimal (n : Nat) : List Nat := (Nat.toDigits 10 n).map Char.toNat

/-- MessageCacheService.get_cache_key: meeting : messages : message-id-or-none
slash device. -/
def get_cache_key (meeting : List Nat) (message_id : Option Nat) (device : List Nat) :
    List Nat :=
  let msgIdStr := match message_id with
    | some m => natDecimal m
    | none => Py.pyOfString "none"
  meeting ++ Py.pyOfString ":messages:" ++ msgIdStr ++ [47] ++ device

/-- MessageCacheService.is_duplicate at clock value now: false when the
meeting or key is absent; on an entry older than the TTL the entry is evicted
(and the meeting dropped when emptied) and the answer is false; otherwise the
answer is whether both text and version are unchanged. Returns the answer and
the possibly mutated state. -/
def is_duplicate (st : CacheState) (now : Int) (meeting : List Nat)
    (message_id : Option Nat) (device text : List Nat) (version : Int) :
    Bool × CacheState :=
  match PyDict.alookup st meeting with
  | none => (false, st)
  | some inner =>
    let key := get_cache_key meeting message_id device
    match PyDict.alookup inner key with
    | none => (false, st)
    | some cached =>
      if cached.processed_at + ttl_hours * 3600 < now then
        let inner2 := PyDict.adel inner key
        let st2 :=
          if inner2 = [] then PyDict.adel st meeting else PyDict.aset st meeting inner2
        (false, st2)
      else
        (decide (cached.text = text ∧ cached.version = version), st)

/-- MessageCacheService.cache_message at clock value now: create the meeting
dictionary when absent and record the entry under the composite key. -/
def cache_message (st : CacheState) (now : Int) (meeting : List Nat)
    (message_id : Option Nat) (device text : List Nat) (version : Int) : CacheState :=
  let inner := (PyDict.alookup st meeting).getD []
  PyDict.aset st meeting
    (PyDict.aset inner (get_cache_key meeting message_id device)
      { text := text, version := version, processed_at := now })

/-- Observer: the cache entry stored for a key of a meeting, if any. -/
def cacheLookup (st : CacheState) (meeting key : List Nat) : Option CacheEntry :=
  (PyDict.alookup st meeting).bind (fun inner => PyDict.alookup inner key)

end MessageCacheService

namespace MappingService

/-- One participant-mapping entry: display name, variant list, last write. -/
structure MapEntry where
  name : List Nat
  variants : List (List Nat)
  updated_at : Int

instance : DecidableEq MapEntry := fun a b =>
  decidable_of_iff
    (a.name = b.name ∧ a.variants = b.variants ∧ a.updated_at = b.updated_at)
    (by cases a; cases b; simp)

/-- The full state of a MappingService: the per-meeting mapping dict, the
per-meeting reverse index, and the per-meeting cleanup deadlines. -/
structure MappingState where
  mapping : List (List Nat × List (List Nat × MapEntry))
  index : List (List Nat × List (List Nat × List Nat))
  cleanup_times : List (List Nat × Int)

instance : DecidableEq MappingState := fun a b =>
  decidable_of_iff
    (a.mapping = b.mapping ∧ a.index = b.index ∧ a.cleanup_times = b.cleanup_times)
    (by cases a; cases b; simp)

/-- The state of a freshly constructed MappingService. -/
def empty_mapping : MappingState := { mapping := [], index := [], cleanup_times := [] }

/-- The ttl_hours of the process-wide MappingService instance (the
constructor default, 24 hours). -/
def ttl_hours : Int := 24

/-- MappingService.save_mapping at clock value now: create the meeting
dictionaries when the meeting is new to the mapping, store the canonical
entry, index the canonical id and every non-empty variant to the canonical
id, and reset the cleanup deadline. -/
def save_mapping (st : MappingState) (now : Int) (meeting device name : List Nat)
    (variants : List (List Nat)) : MappingState :=
  let isNew := (PyDict.alookup st.mapping meeting).isNone
  let mapping0 := if isNew then PyDict.aset st.mapping meeting [] else st.mapping
  let index0 := if isNew then PyDict.aset st.index meeting [] else st.index
  let inner := (PyDict.alookup mapping0 meeting).getD []
  let mapping1 := PyDict.aset mapping0 meeting
    (PyDict.aset inner device { name := name, variants := variants, updated_at := now })
  let idx0 := (PyDict.alookup index0 meeting).getD []
  let idx1 := (device :: variants).foldl
    (fun acc v => if v ≠ [] then PyDict.aset acc v device else acc) idx0
  let index1 := PyDict.aset index0 meeting idx1
  { mapping := mapping1
    index := index1
    cleanup_times := PyDict.aset st.cleanup_times meeting (now + ttl_hours * 3600) }

/-- Python device_id.lstrip of the characters 0x00 through 0x1f. -/
def pyLstripControl (s : List Nat) : List Nat := s.dropWhile (fun c => c < 32)

/-- Python s.split(p)[-1]: the substring after the last occurrence of p. The
fuel bounds the number of occurrences removed; length fuel always suffices
for the non-empty separators used here. -/
def pySplitLast (p : List Nat) : Nat → List Nat → List Nat
  | 0, s => s
  | fuel + 1, s =>
    match Py.pyFind s p with
    | none => s
    | some i => pySplitLast p fuel (s.drop (i + p.length))

/-- The literal devices followed by a slash (the separator of resolution
step 3, without a leading slash). -/
def devicesSepLit : List Nat := Py.pyOfString "devices/"

/-- A lookup strategy outcome: none falls through to the next strategy; a
successful strategy either produces a name or raises (models the unguarded
mapping accesses of the source). -/
def step_direct (inner : List (List Nat × MapEntry)) (k : List Nat) :
    Option (Except Unit (List Nat)) :=
  (PyDict.alookup inner k).map (fun e => Except.ok e.name)

/-- Reverse-index strategy: on an index hit the source reads
mapping[meeting][mapped].name without a guard, so a dangling index entry
raises a KeyError, modelled as the error outcome. -/
def indexHit (inner : List (List Nat × MapEntry)) (idx : List (List Nat × List Nat))
    (k : List Nat) : Option (Except Unit (List Nat)) :=
  (PyDict.alookup idx k).map (fun mapped =>
    match PyDict.alookup inner mapped with
    | some e => Except.ok e.name
    | none => Except.error ())

/-- The ordered resolution strategies of find_name_by_device_id, each return
block of the source one strategy: (1) direct canonical lookup; (2) the
control-stripped id, directly then through the index; (3) the part after
devices/ and then the tail after spaces/, through the index; (4) the part
after the last slash and then the token after a devices path segment,
through the index; (5) the raw id through the index. -/
def resolutionChain (inner : List (List Nat × MapEntry)) (idx : List (List Nat × List Nat))
    (device : List Nat) : Option (Except Unit (List Nat)) :=
  let cleaned := pyLstripControl device
  let parts := device.splitOn 47
  step_direct inner device <|>
  (if cleaned ≠ [] ∧ cleaned ≠ device then
    step_direct inner cleaned <|> indexHit inner idx cleaned
  else none) <|>
  (if Py.containsSub device devicesSepLit then
    indexHit inner idx (pySplitLast devicesSepLit device.length device) <|>
    (if Py.containsSub device DecoderService.spacesLit then
      indexHit inner idx (pySplitLast DecoderService.spacesLit device.length device)
    else none)
  else none) <|>
  (if Py.containsSub device [47] then
    indexHit inner idx (parts.getLastD []) <|>
    (if 2 ≤ parts.length ∧ parts.getD (parts.length - 2) [] = Py.pyOfString "devices" then
      indexHit inner idx (parts.getLastD [])
    else none)
  else none) <|>
  indexHit inner idx device

/-- MappingService.find_name_by_device_id: NotFound for an unknown meeting,
else the first successful strategy of the chain decides the outcome: a name,
a raised KeyError (dangling index target), or NotFound when every strategy
falls through. -/
def find_name_by_device_id (st : MappingState) (meeting device : List Nat) :
    Except Unit (Option (List Nat)) :=
  match PyDict.alookup st.mapping meeting with
  | none => Except.ok none
  | some inner =>
    match resolutionChain inner ((PyDict.alookup st.index meeting).getD []) device with
    | some (Except.ok n) => Except.ok (some n)
    | some (Except.error e) => Except.error e
    | none => Except.ok none

/-- MappingService.clear_mapping: drop the meeting from all three
dictionaries (the source guards each del with a membership test, which is
removal of the key when present). -/
def clear_mapping (st : MappingState) (meeting : List Nat) : MappingState :=
  { mapping := PyDict.adel st.mapping meeting
    index := PyDict.adel st.index meeting
    cleanup_times := PyDict.adel st.cleanup_times meeting }

/-- MappingService.cleanup_expired at clock value now: collect the meetings
whose deadline passed, then clear each. -/
def cleanup_expired (st : MappingState) (now : Int) : MappingState :=
  ((st.cleanup_times.filter (fun p => decide (p.2 < now))).map Prod.fst).foldl
    clear_mapping st

/-- One mutation of a MappingService, for reachable-state reasoning. -/
inductive MapOp where
  | save (now : Int) (meeting device name : List Nat) (variants : List (List Nat))
  | clear (meeting : List Nat)

/-- Applies one operation. -/
def applyOp (st : MappingState) : MapOp → MappingState
  | .save now meeting device name variants => save_mapping st now meeting device name variants
  | .clear meeting => clear_mapping st meeting

/-- The state after a sequence of operations from a fresh service. -/
def runOps (ops : List MapOp) : MappingState := ops.foldl applyOp empty_mapping

/-- The reverse-index health invariant: every index entry of a meeting whose
mapping exists points to a canonical id present in that mapping. -/
def mapping_index_inv (st : MappingState) : Prop :=
  ∀ meeting inner idxInner, PyDict.alookup st.mapping meeting = some inner →
    PyDict.alookup st.index meeting = some idxInner →
    ∀ v d, PyDict.alookup idxInner v = some d → (PyDict.alookup inner d).isSome = true

end MappingService


namespace DecoderService

/-- A valid device id is non-empty: the heuristic rejects the empty string
first. -/
theorem is_valid_ne_nil (s : List Nat) (h : is_valid_device_id s = true) : s ≠ [] := by
  intro hs
  subst hs
  simp [is_valid_device_id] at h

/-- Every candidate the structural approach returns is non-empty and contains
spaces/ or /devices/. -/
theorem extract_device_id_struct_sound (data : List Nat) (s : List Nat) (e : Nat)
    (h : extract_device_id_struct data = some (s, e)) :
    s ≠ [] ∧ (Py.containsSub s spacesLit = true ∨ Py.containsSub s devicesLit = true) := by
  unfold extract_device_id_struct at h
  simp only [] at h
  repeat' split at h
  all_goals first
    | exact Option.noConfusion h
    | (simp only [Option.some.injEq, Prod.mk.injEq] at h
       obtain ⟨hs, he⟩ := h
       subst hs
       assumption)

/-- Every candidate approach 1 returns is non-empty and passes the validity
heuristic. -/
theorem approach1_sound (data : List Nat) (startIdx : Nat) (s : List Nat) (e : Nat)
    (h : approach1 data startIdx = some (s, e)) :
    s ≠ [] ∧ is_valid_device_id s = true := by
  unfold approach1 at h
  simp only [] at h
  repeat' split at h
  all_goals first
    | exact Option.noConfusion h
    | (simp only [Option.some.injEq, Prod.mk.injEq] at h
       obtain ⟨hs, he⟩ := h
       subst hs
       assumption)

/-- Every candidate the approach 2 loop returns is non-empty and passes the
validity heuristic. -/
theorem scanTag98_sound (data : List Nat) (limit : Nat) :
    ∀ fuel idx s e, scanTag98 data limit fuel idx = some (s, e) →
      s ≠ [] ∧ is_valid_device_id s = true := by
  intro fuel
  induction fuel with
  | zero =>
    intro idx s e h
    simp only [scanTag98] at h
    exact Option.noConfusion h
  | succ n ih =>
    intro idx s e h
    simp only [scanTag98] at h
    repeat' split at h
    all_goals first
      | exact Option.noConfusion h
      | exact ih (idx + 1) s e h
      | exact ih (idx + 3) s e h
      | (simp only [Option.some.injEq, Prod.mk.injEq] at h
         obtain ⟨hs, he⟩ := h
         subst hs
         assumption)

/-- Every candidate the approach 3 loop returns is non-empty and passes the
validity heuristic. -/
theorem scanTag10_sound (data : List Nat) (limit : Nat) :
    ∀ fuel idx s e, scanTag10 data limit fuel idx = some (s, e) →
      s ≠ [] ∧ is_valid_device_id s = true := by
  intro fuel
  induction fuel with
  | zero =>
    intro idx s e h
    simp only [scanTag10] at h
    exact Option.noConfusion h
  | succ n ih =>
    intro idx s e h
    simp only [scanTag10] at h
    repeat' split at h
    all_goals first
      | exact Option.noConfusion h
      | exact ih (idx + 1) s e h
      | exact ih (idx + 3) s e h
      | (simp only [Option.some.injEq, Prod.mk.injEq] at h
         obtain ⟨hs, he⟩ := h
         subst hs
         rename_i hguard
         exact ⟨hguard.1, hguard.2.2⟩)

/-- Every candidate approach 4a returns is non-empty and passes the validity
heuristic: the final acceptance gate applies it to the cleaned candidate. -/
theorem approach4a_sound (data : List Nat) (startIdx : Nat) (s : List Nat) (e : Nat)
    (h : approach4a data startIdx = some (s, e)) :
    s ≠ [] ∧ is_valid_device_id s = true := by
  unfold approach4a at h
  simp only [] at h
  repeat' split at h
  all_goals first
    | exact Option.noConfusion h
    | (simp only [Option.some.injEq, Prod.mk.injEq] at h
       obtain ⟨hs, he⟩ := h
       subst hs
       assumption)

/-- Every candidate the approach 4b boundary loop returns is non-empty and
passes the validity heuristic (both of its return sites are guarded by it). -/
theorem try4bBoundary_sound (data : List Nat) (strStart startIdx : Nat) :
    ∀ fuel bIdx s e, try4bBoundary data strStart startIdx fuel bIdx = some (s, e) →
      s ≠ [] ∧ is_valid_device_id s = true := by
  intro fuel
  induction fuel with
  | zero =>
    intro bIdx s e h
    simp only [try4bBoundary] at h
    exact Option.noConfusion h
  | succ n ih =>
    intro bIdx s e h
    simp only [try4bBoundary] at h
    repeat' split at h
    all_goals first
      | exact Option.noConfusion h
      | exact ih (bIdx + 1) s e h
      | (simp only [Option.some.injEq, Prod.mk.injEq] at h
         obtain ⟨hs, he⟩ := h
         subst hs
         first
          | (rename_i hguard hvalid
             exact ⟨hguard.1, hvalid⟩)
          | (rename_i hvalid
             exact ⟨is_valid_ne_nil _ hvalid, hvalid⟩))

/-- Soundness transfer through the first-success foldl driving approach 4b. -/
theorem foldl_firstSome_sound (step : Nat → Option (List Nat × Nat))
    (P : List Nat → Prop) (hstep : ∀ b s e, step b = some (s, e) → P s) :
    ∀ (ps : List Nat) (acc : Option (List Nat × Nat)),
      (∀ s e, acc = some (s, e) → P s) →
      ∀ s e,
        ps.foldl (fun a b => match a with | some r => some r | none => step b) acc = some (s, e) →
        P s := by
  intro ps
  induction ps with
  | nil => intro acc hacc s e h; exact hacc s e h
  | cons p rest ih =>
    intro acc hacc s e h
    refine ih _ ?_ s e h
    intro s' e' h'
    rcases acc with _ | r
    · exact hstep p s' e' h'
    · exact hacc s' e' (by simpa using h')

/-- Every candidate approach 4b returns is non-empty and passes the validity
heuristic. -/
theorem approach4b_sound (data : List Nat) (startIdx : Nat) (s : List Nat) (e : Nat)
    (h : approach4b data startIdx = some (s, e)) :
    s ≠ [] ∧ is_valid_device_id s = true := by
  unfold approach4b at h
  refine foldl_firstSome_sound
    (fun strStart => if startIdx ≤ strStart then none
      else try4bBoundary data strStart startIdx startIdx strStart)
    (fun s => s ≠ [] ∧ is_valid_device_id s = true) ?_ (positions4b startIdx) none
    (by intro s' e' h'; cases h') s e h
  intro b s' e' h'
  simp only [] at h'
  split at h'
  · exact absurd h' (by simp)
  · exact try4bBoundary_sound data b startIdx startIdx b s' e' h'

/-- Every candidate the approach 4c loop returns is non-empty and passes the
validity heuristic. -/
theorem scan4c_sound (data : List Nat) (tag startIdx : Nat) :
    ∀ fuel idx s e, scan4c data tag startIdx fuel idx = some (s, e) →
      s ≠ [] ∧ is_valid_device_id s = true := by
  intro fuel
  induction fuel with
  | zero =>
    intro idx s e h
    simp only [scan4c] at h
    exact Option.noConfusion h
  | succ n ih =>
    intro idx s e h
    simp only [scan4c] at h
    repeat' split at h
    all_goals first
      | exact Option.noConfusion h
      | exact ih (idx + 1) s e h
      | exact ih (idx + 3) s e h
      | (simp only [Option.some.injEq, Prod.mk.injEq] at h
         obtain ⟨hs, he⟩ := h
         subst hs
         assumption)

/-- Soundness wrapper for approach 2. -/
theorem approach2_sound (data : List Nat) (startIdx : Nat) (s : List Nat) (e : Nat)
    (h : approach2 data startIdx = some (s, e)) :
    s ≠ [] ∧ is_valid_device_id s = true := by
  unfold approach2 at h
  exact scanTag98_sound data (min (startIdx + 200) data.length)
    (min (startIdx + 200) data.length) startIdx s e h

/-- Soundness wrapper for approach 3. -/
theorem approach3_sound (data : List Nat) (startIdx : Nat) (s : List Nat) (e : Nat)
    (h : approach3 data startIdx = some (s, e)) :
    s ≠ [] ∧ is_valid_device_id s = true := by
  unfold approach3 at h
  exact scanTag10_sound data (min (startIdx + 150) data.length)
    (min (startIdx + 150) data.length) startIdx s e h

/-- Soundness wrapper for approach 4c. -/
theorem approach4c_sound (data : List Nat) (startIdx : Nat) (s : List Nat) (e : Nat)
    (h : approach4c data startIdx = some (s, e)) :
    s ≠ [] ∧ is_valid_device_id s = true := by
  unfold approach4c at h
  split at h
  next r heq =>
    simp only [Option.some.injEq] at h
    subst h
    exact scan4c_sound data 10 startIdx startIdx (startIdx - 100) s e heq
  next heq =>
    exact scan4c_sound data 98 startIdx startIdx (startIdx - 100) s e h

end DecoderService

/-- Claim C1: whenever device-id extraction returns a non-empty string, that
string contains spaces/ or /devices/ (the nested-structure acceptance test)
or passes the validity heuristic; no heuristic returns a candidate passing
neither test. -/
theorem device_id_extraction_fail_closed (data : List Nat) (startIdx : Nat)
    (s : List Nat) (e : Nat)
    (h : DecoderService.extract_device_id data startIdx = (some s, e)) (hs : s ≠ []) :
    Py.containsSub s DecoderService.spacesLit = true ∨
      Py.containsSub s DecoderService.devicesLit = true ∨
      DecoderService.is_valid_device_id s = true := by
  unfold DecoderService.extract_device_id at h
  repeat' split at h
  all_goals
    simp only [Prod.mk.injEq, Option.some.injEq] at h
  all_goals
    first
      | exact absurd h.1 (by simp)
      | skip
  all_goals obtain ⟨rfl, rfl⟩ := h
  all_goals
    first
      | (rename_i heq
         exact ((DecoderService.extract_device_id_struct_sound data _ _ heq).2).imp id Or.inl)
      | (rename_i heq
         exact Or.inr (Or.inr (DecoderService.approach1_sound data startIdx _ _ heq).2))
      | (rename_i heq
         exact Or.inr (Or.inr (DecoderService.approach2_sound data startIdx _ _ heq).2))
      | (rename_i heq
         exact Or.inr (Or.inr (DecoderService.approach3_sound data startIdx _ _ heq).2))
      | (rename_i heq
         exact Or.inr (Or.inr (DecoderService.approach4a_sound data startIdx _ _ heq).2))
      | (rename_i heq
         exact Or.inr (Or.inr (DecoderService.approach4b_sound data startIdx _ _ heq).2))
      | (rename_i heq
         exact Or.inr (Or.inr (DecoderService.approach4c_sound data startIdx _ _ heq).2))


namespace DecoderService

/-- Helper for the start-marker characterization: find? over a contiguous
index range returns the first index satisfying the predicate. -/
theorem find?_range'_first (p : Nat → Bool) :
    ∀ (len start i : Nat), start ≤ i → i < start + len → p i = true →
      (∀ j, start ≤ j → j < i → p j = false) →
      (List.range' start len).find? p = some i := by
  intro len
  induction len with
  | zero => intro start i h1 h2 hp hprev; omega
  | succ n ih =>
    intro start i h1 h2 hp hprev
    rw [List.range'_succ]
    by_cases hs : i = start
    · subst hs
      rw [List.find?_cons_of_pos _ hp]
    · have hfalse : p start = false := hprev start (le_refl _) (by omega)
      rw [List.find?_cons_of_neg _ (by simp [hfalse])]
      exact ih (start + 1) i (by omega) (by omega) hp (fun j hj1 hj2 => hprev j (by omega) hj2)

/-- The fallback scan of _extract_message_id finds the first byte 24 in range
that leaves four bytes of room, reading the little-endian value after it. -/
theorem fallbackScan24_eq (data : List Nat) (stop : Nat) :
    ∀ fuel idx, stop - idx ≤ fuel →
      fallbackScan24 data stop fuel idx =
        ((List.range' idx (stop - idx)).find?
          (fun i => data.getD i 0 == 24 && decide (i + 5 ≤ data.length))).map
          (fun i => readLE32 data (i + 1)) := by
  intro fuel
  induction fuel with
  | zero =>
    intro idx hn
    have h0 : stop - idx = 0 := by omega
    rw [h0]
    simp [fallbackScan24]
  | succ n ih =>
    intro idx hn
    simp only [fallbackScan24]
    split
    next hlt =>
      have hs : stop - idx = (stop - (idx + 1)) + 1 := by omega
      rw [hs, List.range'_succ]
      split
      next hcond =>
        rw [List.find?_cons_of_pos _
          (by simp only [Bool.and_eq_true, beq_iff_eq, decide_eq_true_eq]
              exact ⟨hcond.1, hcond.2⟩)]
        rfl
      next hcond =>
        rw [List.find?_cons_of_neg _
          (by simp only [Bool.and_eq_true, beq_iff_eq, decide_eq_true_eq, not_and]
              exact fun h1 h2 => hcond ⟨h1, h2⟩)]
        exact ih (idx + 1) (by omega)
    next hlt =>
      have h0 : stop - idx = 0 := by omega
      rw [h0]
      simp

/-- The pattern phase of _extract_message_id is first-success search over the
trial list, skipping patterns whose first occurrence lacks four trailing
bytes. -/
theorem messageIdFromPatterns_eq (data : List Nat) (startIdx : Nat) :
    ∀ ps, messageIdFromPatterns data startIdx ps =
      (ps.findSome? (fun p =>
        match find_pattern data p startIdx with
        | some idx => if idx + p.length + 4 ≤ data.length then some (idx + p.length) else none
        | none => none)).map
        (fun pEnd =>
          (readLE32 data pEnd, if pEnd + 8 ≤ data.length then readLE32 data (pEnd + 4) else 1)) := by
  intro ps
  induction ps with
  | nil => rfl
  | cons p rest ih =>
    simp only [messageIdFromPatterns, List.findSome?_cons]
    rcases hf : find_pattern data p startIdx with _ | idx
    · simpa using ih
    · simp only []
      by_cases hb : idx + p.length + 4 ≤ data.length
      · rw [if_pos hb]
        by_cases hb8 : idx + p.length + 8 ≤ data.length
        · rw [if_pos (by omega : idx + p.length + 4 ≤ data.length)]
          simp [hb8]
        · simp [hb, hb8]
      · rw [if_neg hb, if_neg (by omega)]
        simpa using ih

end DecoderService

/-- Witness for claim C1: a buffer carrying the nested structural device-id
block yields a candidate passing the acceptance test. -/
theorem device_id_extraction_fail_closed_witness :
    Py.containsSub (Py.pyOfString "spaces/ABCDEFGH/devices/1234567")
        DecoderService.spacesLit = true ∨
      Py.containsSub (Py.pyOfString "spaces/ABCDEFGH/devices/1234567")
        DecoderService.devicesLit = true ∨
      DecoderService.is_valid_device_id (Py.pyOfString "spaces/ABCDEFGH/devices/1234567") = true :=
  device_id_extraction_fail_closed
    ([10, 33, 10, 31] ++ Py.pyOfString "spaces/ABCDEFGH/devices/1234567") 0
    (Py.pyOfString "spaces/ABCDEFGH/devices/1234567") 35 (by decide) (by decide)

/-- Counterexample to claim C2 as stated: this base64 input (gzip-free bytes
16 1 0 0 0 0 0 0 0 0) decodes without error, yet the returned event has an
empty text field, because text extraction failed and the decoder substitutes
the empty string rather than failing. -/
theorem decode_empty_text_counterexample :
    DecoderService.decode_raw_data (fun _ => none) (Py.pyOfString "EAEAAAAAAAAAAA==") =
      .ok { device_id := [], message_id := none, text := [], version := 1, lang_id := none } := by
  decide

/-- Claim C2 (amended): whenever the text-extraction stage succeeds, the
extracted text is non-empty; a successfully decoded event can still carry an
empty text field when extraction fails, in which case the caller rejects it. -/
theorem extract_text_nonempty_when_found (data : List Nat) (i : Nat) (t : List Nat)
    (h : DecoderService.extract_text data i = some t) : t ≠ [] := by
  unfold DecoderService.extract_text at h
  simp only [] at h
  repeat' split at h
  all_goals first
    | exact Option.noConfusion h
    | (simp only [Option.some.injEq] at h
       subst h
       assumption)

/-- Witness for the amended claim C2 on a buffer with a timestamp and text
field. -/
theorem extract_text_nonempty_when_found_witness :
    Py.pyOfString "test" ≠ [] :=
  extract_text_nonempty_when_found [24, 0, 50, 4, 116, 101, 115, 116] 0
    (Py.pyOfString "test") (by decide)

/-- Claim C5 (code bug): on the base64 input AAAAHw== (raw bytes 0 0 0 31)
the gzip stage reads data[4] on a 4-byte buffer and an uncaught IndexError
escapes decode_raw_data, which is none of the three documented decode errors
(its stage classification is empty). -/
theorem decode_uncaught_index_error :
    DecoderService.decode_raw_data (fun _ => none) (Py.pyOfString "AAAAHw==") =
        .error .indexError ∧
      DecoderService.DecodeErr.stage? .indexError = none := by
  decide

/-- Counterexample to claim C7 as stated: this 10-byte buffer contains byte
16 (at the final index), yet field extraction fails with the
structure-not-found error, because the marker scan stops one byte short of
the end. -/
theorem start_marker_last_byte_counterexample :
    DecoderService.decode_protobuf [0, 0, 0, 0, 0, 0, 0, 0, 0, 16] =
        .error .structureNotFound ∧
      16 ∈ [0, 0, 0, 0, 0, 0, 0, 0, 0, 16] := by
  decide

/-- Claim C7 (amended): buffers shorter than 10 bytes fail with the
data-too-short error before the marker scan; for buffers of at least 10
bytes, extraction fails with structure-not-found exactly when no byte 16
occurs at an index below length - 1; and when i is the first such index,
the data start is i + 2 if a byte 1 follows and i + 1 otherwise. -/
theorem start_marker_characterization (data : List Nat) :
    (data.length < 10 → DecoderService.decode_protobuf data = .error .protobufTooShort) ∧
    (10 ≤ data.length →
      (DecoderService.decode_protobuf data = .error .structureNotFound ↔
        ∀ i, i < data.length - 1 → data.getD i 0 ≠ 16)) ∧
    (∀ i, i < data.length - 1 → data.getD i 0 = 16 →
      (∀ j, j < i → data.getD j 0 ≠ 16) →
      DecoderService.find_data_start data =
        some (if data.getD (i + 1) 0 = 1 then i + 2 else i + 1)) := by
  refine ⟨fun hlt => by unfold DecoderService.decode_protobuf; rw [if_pos hlt],
    fun hge => ?_, ?_⟩
  · constructor
    · intro hsnf i hi h16
      unfold DecoderService.decode_protobuf at hsnf
      rw [if_neg (by omega)] at hsnf
      split at hsnf
      next heq =>
        unfold DecoderService.find_data_start at heq
        rcases hf : (List.range (data.length - 1)).find? (fun k => data.getD k 0 == 16)
          with _ | j
        · have hnone := List.find?_eq_none.mp hf i (List.mem_range.mpr (by omega))
          simp only [beq_iff_eq] at hnone
          exact hnone h16
        · rw [hf] at heq
          simp only [] at heq
          by_cases hc : j + 1 < data.length ∧ data.getD (j + 1) 0 = 1
          · rw [if_pos hc] at heq
            exact Option.noConfusion heq
          · rw [if_neg hc] at heq
            exact Option.noConfusion heq
      next st heq => exact Except.noConfusion hsnf
    · intro hno
      unfold DecoderService.decode_protobuf
      rw [if_neg (by omega)]
      rcases hfd : DecoderService.find_data_start data with _ | st
      · rfl
      · exfalso
        unfold DecoderService.find_data_start at hfd
        rcases hf : (List.range (data.length - 1)).find? (fun k => data.getD k 0 == 16)
          with _ | j
        · rw [hf] at hfd
          exact Option.noConfusion hfd
        · have hj := List.find?_some hf
          have hjmem := List.mem_range.mp (List.mem_of_find?_eq_some hf)
          simp only [beq_iff_eq] at hj
          exact hno j hjmem hj
  · intro i hi h16 hprev
    unfold DecoderService.find_data_start
    rw [List.range_eq_range', DecoderService.find?_range'_first
      (fun k => data.getD k 0 == 16) (data.length - 1) 0 i (by omega) (by omega)
      (by simp only [beq_iff_eq]; exact h16)
      (fun j hj1 hj2 => by simp only [beq_eq_false_iff_ne, ne_eq]; exact hprev j hj2)]
    simp only []
    split
    next hc => rw [if_pos hc.2]
    next hc =>
      rw [if_neg]
      intro hone
      exact hc ⟨by omega, hone⟩

/-- Witness for the amended claim C7: a marker followed by byte 1 at index 4
places the data start at index 6, and a short buffer is rejected as too
short. -/
theorem start_marker_characterization_witness :
    DecoderService.decode_protobuf [1, 2] = .error .protobufTooShort ∧
      DecoderService.find_data_start [0, 0, 0, 0, 16, 1, 0, 0, 0, 0] = some 6 :=
  ⟨(start_marker_characterization [1, 2]).1 (by decide),
    (start_marker_characterization [0, 0, 0, 0, 16, 1, 0, 0, 0, 0]).2.2 4
      (by decide) (by decide) (by decide)⟩

/-- Claim C8: every string longer than 20 characters whose space count
exceeds a tenth of its length fails the validity heuristic, and the literal
spaces/X/devices/123 passes it. -/
theorem validity_heuristic_bounds :
    (∀ s : List Nat, 20 < s.length → s.length < 10 * s.count 32 →
        DecoderService.is_valid_device_id s = false) ∧
    DecoderService.is_valid_device_id (Py.pyOfString "spaces/X/devices/123") = true := by
  constructor
  · intro s hlen hsp
    unfold DecoderService.is_valid_device_id
    simp only [] at hlen hsp ⊢
    repeat' split
    all_goals first | rfl | omega
  · decide

/-- Witness for claim C8 on a 21-space string. -/
theorem validity_heuristic_bounds_witness :
    DecoderService.is_valid_device_id (List.replicate 21 32) = false :=
  validity_heuristic_bounds.1 (List.replicate 21 32) (by decide) (by decide)

/-- Counterexample to claim C9 as stated: in this buffer the first pattern of
the trial order is found (at index 8), but fewer than 4 bytes follow it, and
the extractor returns a message id read elsewhere (after the third pattern at
index 0) instead of the bytes following the first-found pattern. -/
theorem message_id_first_pattern_counterexample :
    DecoderService.find_pattern [24, 0, 45, 0, 5, 0, 0, 0, 24, 0, 32, 1, 45, 0, 1, 2, 3]
        [24, 0, 32, 1, 45, 0] 0 = some 8 ∧
      DecoderService.extract_message_id [24, 0, 45, 0, 5, 0, 0, 0, 24, 0, 32, 1, 45, 0, 1, 2, 3] 0 =
        (some 5, 18874392) ∧
      ¬(8 + 6 + 4 ≤ 17) := by
  decide

/-- Claim C9 (amended): message-id extraction tries the four patterns in
order, a pattern qualifying only when its first occurrence at or after the
offset leaves at least 4 bytes; the first qualifying pattern yields those 4
bytes as a little-endian message id with the next 4 bytes as the version when
present (1 otherwise); with no qualifying pattern, the first byte 24 within
100 bytes of the offset followed by at least 4 bytes yields the id with
version 1; otherwise no id is extracted and the version is 1. -/
theorem message_id_extraction_characterization (data : List Nat) (startIdx : Nat) :
    DecoderService.extract_message_id data startIdx =
      match (DecoderService.MESSAGE_ID_PATTERNS.findSome? (fun p =>
          match DecoderService.find_pattern data p startIdx with
          | some idx =>
            if idx + p.length + 4 ≤ data.length then some (idx + p.length) else none
          | none => none)) with
      | some pEnd =>
        (some (DecoderService.readLE32 data pEnd),
          if pEnd + 8 ≤ data.length then DecoderService.readLE32 data (pEnd + 4) else 1)
      | none =>
        match ((List.range' startIdx (min (startIdx + 100) data.length - startIdx)).find?
            (fun i => data.getD i 0 == 24 && decide (i + 5 ≤ data.length))) with
        | some i => (some (DecoderService.readLE32 data (i + 1)), 1)
        | none => (none, 1) := by
  unfold DecoderService.extract_message_id
  rw [DecoderService.messageIdFromPatterns_eq,
    DecoderService.fallbackScan24_eq data (min (startIdx + 100) data.length)
      (min (startIdx + 100) data.length) startIdx (by omega)]
  rcases (DecoderService.MESSAGE_ID_PATTERNS.findSome? (fun p =>
      match DecoderService.find_pattern data p startIdx with
      | some idx =>
        if idx + p.length + 4 ≤ data.length then some (idx + p.length) else none
      | none => none)) with _ | pEnd
  · simp only [Option.map_none]
    rcases ((List.range' startIdx (min (startIdx + 100) data.length - startIdx)).find?
        (fun i => data.getD i 0 == 24 && decide (i + 5 ≤ data.length))) with _ | i
    · rfl
    · rfl
  · rfl

namespace PyDict

theorem alookup_aset_self {β : Type} (l : List (List Nat × β)) (k : List Nat) (v : β) :
    alookup (aset l k v) k = some v := by
  induction l with
  | nil => simp [aset, alookup]
  | cons p t ih =>
    obtain ⟨k2, v2⟩ := p
    by_cases h : k2 = k
    · simp [aset, alookup, h]
    · simp [aset, alookup, h, ih]

theorem alookup_aset_ne {β : Type} (l : List (List Nat × β)) (k k2 : List Nat) (v : β)
    (h : k2 ≠ k) : alookup (aset l k v) k2 = alookup l k2 := by
  have hne : ¬k = k2 := fun hh => h hh.symm
  induction l with
  | nil => simp [aset, alookup, hne]
  | cons p t ih =>
    obtain ⟨k3, v3⟩ := p
    by_cases h3 : k3 = k
    · subst h3
      simp [aset, alookup, hne]
    · by_cases h32 : k3 = k2 <;> simp [aset, alookup, h3, h32, h, hne, ih]

theorem alookup_aset_cases {β : Type} (l : List (List Nat × β)) (k k2 : List Nat) (v w : β)
    (h : alookup (aset l k v) k2 = some w) : (k2 = k ∧ w = v) ∨ alookup l k2 = some w := by
  by_cases hk : k2 = k
  · subst hk
    rw [alookup_aset_self] at h
    exact Or.inl ⟨rfl, (Option.some.inj h).symm⟩
  · rw [alookup_aset_ne l k k2 v hk] at h
    exact Or.inr h

theorem alookup_aset_isSome_mono {β : Type} (l : List (List Nat × β)) (k k2 : List Nat)
    (v : β) (h : (alookup l k2).isSome = true) : (alookup (aset l k v) k2).isSome = true := by
  by_cases hk : k2 = k
  · subst hk
    rw [alookup_aset_self]
    rfl
  · rw [alookup_aset_ne l k k2 v hk]
    exact h

theorem alookup_adel {β : Type} (l : List (List Nat × β)) (k k2 : List Nat) :
    alookup (adel l k) k2 = if k2 = k then none else alookup l k2 := by
  induction l with
  | nil => simp [adel, alookup]
  | cons p t ih =>
    obtain ⟨k3, v3⟩ := p
    by_cases h2 : k2 = k <;> by_cases h3 : k3 = k <;> by_cases h32 : k3 = k2 <;>
      simp_all [adel, List.filter_cons, alookup]

theorem alookup_mem {β : Type} (l : List (List Nat × β)) (k : List Nat) (v : β)
    (h : alookup l k = some v) : (k, v) ∈ l := by
  induction l with
  | nil => simp [alookup] at h
  | cons p t ih =>
    obtain ⟨k2, v2⟩ := p
    by_cases h2 : k2 = k
    · subst h2
      simp [alookup] at h
      subst h
      exact List.mem_cons_self _ _
    · simp only [alookup, if_neg h2] at h
      exact List.mem_cons_of_mem _ (ih h)

end PyDict

namespace MappingService

/-- Strategy outcomes that can only fall through or succeed with a name
satisfying P (never raise). -/
def okOnly (P : List Nat → Prop) (o : Option (Except Unit (List Nat))) : Prop :=
  ∀ x, o = some x → ∃ n, x = Except.ok n ∧ P n

theorem okOnly_none (P : List Nat → Prop) : okOnly P none :=
  fun _ h => Option.noConfusion h

theorem okOnly_orElse (P : List Nat → Prop) (a b : Option (Except Unit (List Nat)))
    (ha : okOnly P a) (hb : okOnly P b) : okOnly P (a <|> b) := by
  intro x hx
  rcases a with _ | av
  · rw [Option.none_orElse] at hx
    exact hb x hx
  · rw [Option.some_orElse] at hx
    exact ha x hx

theorem okOnly_ite (P : List Nat → Prop) (c : Prop) [Decidable c]
    (a b : Option (Except Unit (List Nat))) (ha : okOnly P a) (hb : okOnly P b) :
    okOnly P (if c then a else b) := by
  split
  · exact ha
  · exact hb

theorem okOnly_step_direct (P : List Nat → Prop) (inner : List (List Nat × MapEntry))
    (k : List Nat) (h : ∀ k2 e, PyDict.alookup inner k2 = some e → P e.name) :
    okOnly P (step_direct inner k) := by
  intro x hx
  unfold step_direct at hx
  rcases he : PyDict.alookup inner k with _ | e
  · rw [he] at hx
    exact Option.noConfusion hx
  · rw [he] at hx
    simp only [Option.map_some'] at hx
    exact ⟨e.name, (Option.some.inj hx).symm, h k e he⟩

theorem okOnly_indexHit (P : List Nat → Prop) (inner : List (List Nat × MapEntry))
    (idx : List (List Nat × List Nat)) (k : List Nat)
    (hv : ∀ v d, PyDict.alookup idx v = some d →
      ∃ e, PyDict.alookup inner d = some e ∧ P e.name) :
    okOnly P (indexHit inner idx k) := by
  intro x hx
  unfold indexHit at hx
  rcases hd : PyDict.alookup idx k with _ | d
  · rw [hd] at hx
    exact Option.noConfusion hx
  · rw [hd] at hx
    simp only [Option.map_some'] at hx
    obtain ⟨e, he, hp⟩ := hv k d hd
    rw [he] at hx
    exact ⟨e.name, (Option.some.inj hx).symm, hp⟩

theorem orElse_eq_none_iff {α : Type} (a b : Option α) :
    (a <|> b) = none ↔ a = none ∧ b = none := by
  rcases a with _ | av <;> simp

/-- The whole resolution chain can only fall through or produce a good name,
given that direct entries are good and every index entry points to a good
entry. -/
theorem okOnly_resolutionChain (P : List Nat → Prop) (inner : List (List Nat × MapEntry))
    (idx : List (List Nat × List Nat)) (device : List Nat)
    (hdirect : ∀ k2 e, PyDict.alookup inner k2 = some e → P e.name)
    (hv : ∀ v d, PyDict.alookup idx v = some d →
      ∃ e, PyDict.alookup inner d = some e ∧ P e.name) :
    okOnly P (resolutionChain inner idx device) := by
  unfold resolutionChain
  simp only []
  refine okOnly_orElse P _ _ (okOnly_step_direct P inner _ hdirect)
    (okOnly_orElse P _ _ (okOnly_ite P _ _ _
        (okOnly_orElse P _ _ (okOnly_step_direct P inner _ hdirect)
          (okOnly_indexHit P inner idx _ hv)) (okOnly_none P))
      (okOnly_orElse P _ _ (okOnly_ite P _ _ _
          (okOnly_orElse P _ _ (okOnly_indexHit P inner idx _ hv)
            (okOnly_ite P _ _ _ (okOnly_indexHit P inner idx _ hv) (okOnly_none P)))
          (okOnly_none P))
        (okOnly_orElse P _ _ (okOnly_ite P _ _ _
            (okOnly_orElse P _ _ (okOnly_indexHit P inner idx _ hv)
              (okOnly_ite P _ _ _ (okOnly_indexHit P inner idx _ hv) (okOnly_none P)))
            (okOnly_none P))
          (okOnly_indexHit P inner idx _ hv))))

end MappingService

namespace MappingService

/-- Every value the variant-indexing foldl of save_mapping stores satisfies P
provided the accumulator values do and the indexed device id does. -/
theorem foldl_index_values (dflt : List Nat) (P : List Nat → Prop) (hd : P dflt) :
    ∀ (vs : List (List Nat)) (acc : List (List Nat × List Nat)),
      (∀ v d, PyDict.alookup acc v = some d → P d) →
      ∀ v d, PyDict.alookup
        (vs.foldl (fun acc v => if v ≠ [] then PyDict.aset acc v dflt else acc) acc) v =
          some d → P d := by
  intro vs
  induction vs with
  | nil => intro acc hacc v d h; exact hacc v d h
  | cons w rest ih =>
    intro acc hacc v d h
    refine ih _ ?_ v d h
    intro v2 d2 h2
    simp only [] at h2
    split at h2
    · rcases PyDict.alookup_aset_cases acc w v2 dflt d2 h2 with ⟨_, rfl⟩ | hold
      · exact hd
      · exact hacc v2 d2 hold
    · exact hacc v2 d2 h2

/-- A non-empty id among the indexed variants ends up mapped to the device
id. -/
theorem foldl_index_hits (dflt : List Nat) :
    ∀ (vs : List (List Nat)) (acc : List (List Nat × List Nat)) (w : List Nat),
      (PyDict.alookup acc w = some dflt ∨ (w ∈ vs ∧ w ≠ [])) →
      PyDict.alookup
        (vs.foldl (fun acc v => if v ≠ [] then PyDict.aset acc v dflt else acc) acc) w =
        some dflt := by
  intro vs
  induction vs with
  | nil =>
    intro acc w h
    rcases h with h | ⟨hmem, _⟩
    · exact h
    · simp at hmem
  | cons v rest ih =>
    intro acc w h
    rcases h with h | ⟨hmem, hne⟩
    · refine ih _ w (Or.inl ?_)
      simp only []
      split
      · by_cases hw : w = v
        · subst hw
          exact PyDict.alookup_aset_self acc w dflt
        · rw [PyDict.alookup_aset_ne acc v w dflt hw]
          exact h
      · exact h
    · rcases List.mem_cons.mp hmem with rfl | hmem2
      · refine ih _ w (Or.inl ?_)
        simp only []
        rw [if_pos hne]
        exact PyDict.alookup_aset_self acc w dflt
      · exact ih _ w (Or.inr ⟨hmem2, hne⟩)

end MappingService

namespace MappingService

/-- Reduction of find_name_by_device_id once the meeting mapping is known. -/
theorem find_name_eq_chain (st : MappingState) (meeting device : List Nat)
    (inner : List (List Nat × MapEntry))
    (hm : PyDict.alookup st.mapping meeting = some inner) :
    find_name_by_device_id st meeting device =
      match resolutionChain inner ((PyDict.alookup st.index meeting).getD []) device with
      | some (Except.ok n) => Except.ok (some n)
      | some (Except.error e) => Except.error e
      | none => Except.ok none := by
  unfold find_name_by_device_id
  rw [hm]

end MappingService

open MappingService in
/-- Claim C4 (amended): after registering canonical id A with a non-empty
variant B from a fresh state, both resolve to the mapped name, and after
clearing the meeting both resolve to NotFound. -/
theorem mapping_resolve_roundtrip (m A name B : List Nat) (hB : B ≠ []) :
    find_name_by_device_id (save_mapping empty_mapping 0 m A name [B]) m A =
        Except.ok (some name) ∧
    find_name_by_device_id (save_mapping empty_mapping 0 m A name [B]) m B =
        Except.ok (some name) ∧
    find_name_by_device_id (clear_mapping (save_mapping empty_mapping 0 m A name [B]) m) m A =
        Except.ok none ∧
    find_name_by_device_id (clear_mapping (save_mapping empty_mapping 0 m A name [B]) m) m B =
        Except.ok none := by
  have hmap : (save_mapping empty_mapping 0 m A name [B]).mapping =
      [(m, [(A, { name := name, variants := [B], updated_at := 0 })])] := by
    simp [save_mapping, empty_mapping, PyDict.aset, PyDict.alookup]
  have hidx : (save_mapping empty_mapping 0 m A name [B]).index =
      [(m, [A, B].foldl (fun acc v => if v ≠ [] then PyDict.aset acc v A else acc) [])] := by
    simp [save_mapping, empty_mapping, PyDict.aset, PyDict.alookup]
  set entry : MapEntry := { name := name, variants := [B], updated_at := 0 } with hentry
  set idx1 := [A, B].foldl (fun acc v => if v ≠ [] then PyDict.aset acc v A else acc)
    ([] : List (List Nat × List Nat)) with hidx1
  have hinner : ∀ k2 e, PyDict.alookup [(A, entry)] k2 = some e → e.name = name := by
    intro k2 e he
    by_cases hk : A = k2
    · simp [PyDict.alookup, hk] at he
      subst he
      rfl
    · simp [PyDict.alookup, hk] at he
  have hvgood : ∀ v d, PyDict.alookup idx1 v = some d →
      ∃ e, PyDict.alookup [(A, entry)] d = some e ∧ e.name = name := by
    intro v d hd
    have hdA : d = A := foldl_index_values A (fun x => x = A) rfl [A, B] []
      (by intro v2 d2 h2; simp [PyDict.alookup] at h2) v d hd
    subst hdA
    exact ⟨entry, by simp [PyDict.alookup], rfl⟩
  have hgood := okOnly_resolutionChain (fun x => x = name) [(A, entry)] idx1 B hinner hvgood
  have hBhit : PyDict.alookup idx1 B = some A :=
    foldl_index_hits A [A, B] [] B (Or.inr ⟨by simp, hB⟩)
  have hmlook : PyDict.alookup (save_mapping empty_mapping 0 m A name [B]).mapping m =
      some [(A, entry)] := by
    rw [hmap]
    simp [PyDict.alookup]
  have hidxreal : (PyDict.alookup (save_mapping empty_mapping 0 m A name [B]).index m).getD []
      = idx1 := by
    rw [hidx]
    simp [PyDict.alookup]
  refine ⟨?_, ?_, ?_, ?_⟩
  · rw [find_name_eq_chain _ m A [(A, entry)] hmlook]
    have hchainA : resolutionChain [(A, entry)]
        ((PyDict.alookup (save_mapping empty_mapping 0 m A name [B]).index m).getD []) A =
        some (Except.ok name) := by
      unfold resolutionChain
      simp only []
      rw [show step_direct [(A, entry)] A = some (Except.ok name) from by
            simp [step_direct, PyDict.alookup],
        Option.some_orElse]
    rw [hchainA]
  · rw [find_name_eq_chain _ m B [(A, entry)] hmlook, hidxreal]
    rcases hc : resolutionChain [(A, entry)] idx1 B with _ | x
    · exfalso
      unfold resolutionChain at hc
      simp only [orElse_eq_none_iff] at hc
      have hlast := hc.2.2.2.2
      unfold indexHit at hlast
      rw [hBhit] at hlast
      exact Option.noConfusion hlast
    · obtain ⟨n, rfl, hn⟩ := hgood x hc
      subst hn
      rfl
  · unfold find_name_by_device_id clear_mapping
    simp [PyDict.alookup_adel]
  · unfold find_name_by_device_id clear_mapping
    simp [PyDict.alookup_adel]

namespace MappingService

theorem inv_empty : mapping_index_inv empty_mapping := by
  intro meeting inner idxInner hm
  simp [empty_mapping, PyDict.alookup] at hm

theorem inv_save (st : MappingState) (hinv : mapping_index_inv st)
    (now : Int) (meeting device name : List Nat) (variants : List (List Nat)) :
    mapping_index_inv (save_mapping st now meeting device name variants) := by
  intro m2 inner2 idx2 hm2 hi2 v d hv
  unfold save_mapping at hm2 hi2
  simp only [] at hm2 hi2
  by_cases hmm : m2 = meeting
  · subst hmm
    rw [PyDict.alookup_aset_self] at hm2 hi2
    have hinner2 : inner2 = PyDict.aset
        ((PyDict.alookup (if (PyDict.alookup st.mapping m2).isNone = true then
          PyDict.aset st.mapping m2 [] else st.mapping) m2).getD []) device
        { name := name, variants := variants, updated_at := now } :=
      (Option.some.inj hm2).symm
    have hidx2 : idx2 = (device :: variants).foldl
        (fun acc v => if v ≠ [] then PyDict.aset acc v device else acc)
        ((PyDict.alookup (if (PyDict.alookup st.mapping m2).isNone = true then
          PyDict.aset st.index m2 [] else st.index) m2).getD []) :=
      (Option.some.inj hi2).symm
    rw [hidx2] at hv
    refine foldl_index_values device (fun d => (PyDict.alookup inner2 d).isSome = true)
      ?_ (device :: variants) _ ?_ v d hv
    · show (PyDict.alookup inner2 device).isSome = true
      rw [hinner2, PyDict.alookup_aset_self]
      rfl
    · intro v2 d2 h2
      rcases hq : PyDict.alookup st.mapping m2 with _ | innerOld
      · rw [hq] at h2
        simp only [Option.isNone_none, if_true, PyDict.alookup_aset_self,
          Option.getD_some] at h2
        simp [PyDict.alookup] at h2
      · rw [hq] at h2
        simp only [Option.isNone_some, Bool.false_eq_true, if_false] at h2
        rcases hio : PyDict.alookup st.index m2 with _ | idxOld
        · rw [hio] at h2
          simp [PyDict.alookup] at h2
        · rw [hio] at h2
          simp only [Option.getD_some] at h2
          have hso := hinv m2 innerOld idxOld hq hio v2 d2 h2
          show (PyDict.alookup inner2 d2).isSome = true
          rw [hinner2, hq]
          simp only [Option.isNone_some, Bool.false_eq_true, if_false]
          rw [hq]
          simp only [Option.getD_some]
          exact PyDict.alookup_aset_isSome_mono innerOld device d2 _ hso
  · rw [PyDict.alookup_aset_ne _ _ _ _ hmm] at hm2 hi2
    have hm3 : PyDict.alookup st.mapping m2 = some inner2 := by
      split at hm2
      · rwa [PyDict.alookup_aset_ne _ _ _ _ hmm] at hm2
      · exact hm2
    have hi3 : PyDict.alookup st.index m2 = some idx2 := by
      split at hi2
      · rwa [PyDict.alookup_aset_ne _ _ _ _ hmm] at hi2
      · exact hi2
    exact hinv m2 inner2 idx2 hm3 hi3 v d hv

theorem inv_clear (st : MappingState) (hinv : mapping_index_inv st) (meeting : List Nat) :
    mapping_index_inv (clear_mapping st meeting) := by
  intro m2 inner2 idx2 hm2 hi2
  unfold clear_mapping at hm2 hi2
  simp only [] at hm2 hi2
  rw [PyDict.alookup_adel] at hm2 hi2
  split at hm2
  · exact Option.noConfusion hm2
  · split at hi2
    · exact Option.noConfusion hi2
    · exact hinv m2 inner2 idx2 hm2 hi2

theorem inv_foldl (ops : List MapOp) :
    ∀ st, mapping_index_inv st → mapping_index_inv (ops.foldl applyOp st) := by
  induction ops with
  | nil => intro st h; exact h
  | cons op rest ih =>
    intro st h
    refine ih _ ?_
    cases op with
    | save now meeting device name variants => exact inv_save st h now meeting device name variants
    | clear meeting => exact inv_clear st h meeting

theorem inv_runOps (ops : List MapOp) : mapping_index_inv (runOps ops) :=
  inv_foldl ops empty_mapping inv_empty

end MappingService

open MappingService in
/-- Claim C10: from any sequence of saveMapping and clear operations, the
reverse-index invariant holds and resolution never raises: it returns a name
or NotFound. -/
theorem resolve_never_raises (ops : List MapOp) (meeting device : List Nat) :
    mapping_index_inv (runOps ops) ∧
    ∃ r, find_name_by_device_id (runOps ops) meeting device = Except.ok r := by
  have hinv := inv_runOps ops
  refine ⟨hinv, ?_⟩
  rcases hm : PyDict.alookup (runOps ops).mapping meeting with _ | inner
  · exact ⟨none, by unfold find_name_by_device_id; rw [hm]⟩
  · have hgood : okOnly (fun _ => True) (resolutionChain inner
        ((PyDict.alookup (runOps ops).index meeting).getD []) device) := by
      apply okOnly_resolutionChain
      · intro k2 e he
        trivial
      · intro v d hv
        rcases hi : PyDict.alookup (runOps ops).index meeting with _ | idxInner
        · rw [hi] at hv
          simp [PyDict.alookup] at hv
        · rw [hi] at hv
          simp only [Option.getD_some] at hv
          have hsome := hinv meeting inner idxInner hm hi v d hv
          obtain ⟨e, he⟩ := Option.isSome_iff_exists.mp hsome
          exact ⟨e, he, trivial⟩
    rw [find_name_eq_chain _ _ _ _ hm]
    rcases hc : resolutionChain inner ((PyDict.alookup (runOps ops).index meeting).getD [])
        device with _ | x
    · exact ⟨none, rfl⟩
    · obtain ⟨n, rfl, _⟩ := hgood x hc
      exact ⟨some n, rfl⟩

namespace MappingService

theorem clear_preserves_none (meeting : List Nat) :
    ∀ (ms : List (List Nat)) (st : MappingState),
      PyDict.alookup st.mapping meeting = none →
      PyDict.alookup (ms.foldl clear_mapping st).mapping meeting = none := by
  intro ms
  induction ms with
  | nil => intro st h; exact h
  | cons m2 rest ih =>
    intro st h
    refine ih _ ?_
    unfold clear_mapping
    simp only []
    rw [PyDict.alookup_adel]
    split
    · rfl
    · exact h

theorem clear_foldl_none (meeting : List Nat) :
    ∀ (ms : List (List Nat)) (st : MappingState), meeting ∈ ms →
      PyDict.alookup (ms.foldl clear_mapping st).mapping meeting = none := by
  intro ms
  induction ms with
  | nil => intro st h; simp at h
  | cons m2 rest ih =>
    intro st h
    rcases List.mem_cons.mp h with rfl | hmem
    · refine clear_preserves_none meeting rest _ ?_
      unfold clear_mapping
      simp only []
      rw [PyDict.alookup_adel]
      simp
    · exact ih _ hmem

end MappingService

open MessageCacheService MappingService in
/-- Claim C6 (amended): the dedup cache never reports a duplicate from an
entry older than 1 hour (it checks the TTL on access); the mapping service
evicts only through cleanup_expired: immediately after a sweep, resolution of
any meeting whose deadline passed is NotFound, but resolve itself consults no
clock, so without a sweep an expired mapping is still served. -/
theorem ttl_reads_amended :
    (∀ (st : CacheState) (now : Int) (meeting : List Nat) (mid : Option Nat)
        (dev text : List Nat) (ver : Int),
      (is_duplicate st now meeting mid dev text ver).1 = true →
      ∃ entry, cacheLookup st meeting (get_cache_key meeting mid dev) = some entry ∧
        ¬(entry.processed_at + 3600 < now)) ∧
    (∀ (st : MappingState) (now t : Int) (meeting dev : List Nat),
      PyDict.alookup st.cleanup_times meeting = some t → t < now →
      find_name_by_device_id (cleanup_expired st now) meeting dev = Except.ok none) := by
  constructor
  · intro st now meeting mid dev text ver h
    unfold is_duplicate at h
    rcases hm : PyDict.alookup st meeting with _ | inner
    · rw [hm] at h
      exact absurd h (by simp)
    · rw [hm] at h
      simp only [] at h
      rcases hk : PyDict.alookup inner (get_cache_key meeting mid dev) with _ | cached
      · rw [hk] at h
        exact absurd h (by simp)
      · rw [hk] at h
        simp only [MessageCacheService.ttl_hours] at h
        split at h
        · exact absurd h (by simp)
        · next hexp =>
            refine ⟨cached, ?_, by omega⟩
            unfold cacheLookup
            rw [hm]
            simp only [Option.some_bind]
            exact hk
  · intro st now t meeting dev ht hlt
    have hmem : meeting ∈ (st.cleanup_times.filter (fun p => decide (p.2 < now))).map Prod.fst := by
      refine List.mem_map.mpr ⟨(meeting, t), ?_, rfl⟩
      refine List.mem_filter.mpr ⟨PyDict.alookup_mem _ _ _ ht, by simpa using hlt⟩
    have hnone := clear_foldl_none meeting
      ((st.cleanup_times.filter (fun p => decide (p.2 < now))).map Prod.fst) st hmem
    unfold cleanup_expired find_name_by_device_id
    rw [hnone]



open MessageCacheService in
/-- Claim C3: recording a message and re-checking the identical tuple within
the 1-hour TTL reports a duplicate; a changed text or version is not a
duplicate; a missing entry is not a duplicate; an entry older than 1 hour is
not a duplicate and is evicted. -/
theorem dedup_record_then_check :
    (∀ (st : CacheState) (t0 t1 : Int) (meeting : List Nat) (mid : Option Nat)
        (dev text : List Nat) (ver : Int),
      t1 ≤ t0 + 3600 →
      (is_duplicate (cache_message st t0 meeting mid dev text ver) t1
        meeting mid dev text ver).1 = true) ∧
    (∀ (st : CacheState) (t0 t1 : Int) (meeting : List Nat) (mid : Option Nat)
        (dev text text2 : List Nat) (ver ver2 : Int),
      text2 ≠ text ∨ ver2 ≠ ver →
      (is_duplicate (cache_message st t0 meeting mid dev text ver) t1
        meeting mid dev text2 ver2).1 = false) ∧
    (∀ (st : CacheState) (now : Int) (meeting : List Nat) (mid : Option Nat)
        (dev text : List Nat) (ver : Int),
      cacheLookup st meeting (get_cache_key meeting mid dev) = none →
      (is_duplicate st now meeting mid dev text ver).1 = false) ∧
    (∀ (st : CacheState) (now : Int) (meeting : List Nat) (mid : Option Nat)
        (dev text : List Nat) (ver : Int) (entry : CacheEntry),
      cacheLookup st meeting (get_cache_key meeting mid dev) = some entry →
      entry.processed_at + 3600 < now →
      (is_duplicate st now meeting mid dev text ver).1 = false ∧
      cacheLookup (is_duplicate st now meeting mid dev text ver).2 meeting
        (get_cache_key meeting mid dev) = none) := by
  refine ⟨?_, ?_, ?_, ?_⟩
  · intro st t0 t1 meeting mid dev text ver ht
    unfold is_duplicate cache_message
    simp only [PyDict.alookup_aset_self]
    simp only [MessageCacheService.ttl_hours]
    rw [if_neg (by omega)]
    simp
  · intro st t0 t1 meeting mid dev text text2 ver ver2 hne
    unfold is_duplicate cache_message
    simp only [PyDict.alookup_aset_self]
    simp only [MessageCacheService.ttl_hours]
    split
    · rfl
    · simp only [decide_eq_false_iff_not, not_and]
      rcases hne with hne | hne
      · intro ht; exact absurd ht.symm hne
      · intro ht hv; exact hne hv.symm
  · intro st now meeting mid dev text ver hnone
    unfold cacheLookup at hnone
    unfold is_duplicate
    rcases hm : PyDict.alookup st meeting with _ | inner
    · rfl
    · rw [hm] at hnone
      simp only [Option.some_bind] at hnone
      simp only []
      rw [hnone]
  · intro st now meeting mid dev text ver entry hsome hexp
    unfold cacheLookup at hsome
    rcases hm : PyDict.alookup st meeting with _ | inner
    · rw [hm] at hsome
      simp only [Option.none_bind] at hsome
      exact Option.noConfusion hsome
    · rw [hm] at hsome
      simp only [Option.some_bind] at hsome
      unfold is_duplicate
      rw [hm]
      simp only []
      rw [hsome]
      simp only []
      simp only [MessageCacheService.ttl_hours]
      rw [if_pos (by omega)]
      refine ⟨rfl, ?_⟩
      unfold cacheLookup
      simp only []
      split
      next hempty =>
        rw [PyDict.alookup_adel]
        simp
      next hempty =>
        rw [PyDict.alookup_aset_self]
        simp only [Option.some_bind]
        rw [PyDict.alookup_adel]
        simp

/-- Witness for claim C3 at concrete inputs. -/
theorem dedup_record_then_check_witness :
    (MessageCacheService.is_duplicate
        (MessageCacheService.cache_message [] 0 (Py.pyOfString "m") (some 1)
          (Py.pyOfString "d") (Py.pyOfString "hi") 2) 100
        (Py.pyOfString "m") (some 1) (Py.pyOfString "d") (Py.pyOfString "hi") 2).1 = true ∧
    (MessageCacheService.is_duplicate
        (MessageCacheService.cache_message [] 0 (Py.pyOfString "m") (some 1)
          (Py.pyOfString "d") (Py.pyOfString "hi") 2) 100
        (Py.pyOfString "m") (some 1) (Py.pyOfString "d") (Py.pyOfString "ho") 2).1 = false ∧
    (MessageCacheService.is_duplicate [] 50 (Py.pyOfString "m") (some 1)
        (Py.pyOfString "d") (Py.pyOfString "hi") 2).1 = false ∧
    (MessageCacheService.is_duplicate
        (MessageCacheService.cache_message [] 0 (Py.pyOfString "m") (some 1)
          (Py.pyOfString "d") (Py.pyOfString "hi") 2) 4000
        (Py.pyOfString "m") (some 1) (Py.pyOfString "d") (Py.pyOfString "hi") 2).1 = false ∧
    MessageCacheService.cacheLookup
      (MessageCacheService.is_duplicate
        (MessageCacheService.cache_message [] 0 (Py.pyOfString "m") (some 1)
          (Py.pyOfString "d") (Py.pyOfString "hi") 2) 4000
        (Py.pyOfString "m") (some 1) (Py.pyOfString "d") (Py.pyOfString "hi") 2).2
      (Py.pyOfString "m")
      (MessageCacheService.get_cache_key (Py.pyOfString "m") (some 1) (Py.pyOfString "d")) =
      none :=
  ⟨dedup_record_then_check.1 [] 0 100 (Py.pyOfString "m") (some 1) (Py.pyOfString "d")
      (Py.pyOfString "hi") 2 (by decide),
    dedup_record_then_check.2.1 [] 0 100 (Py.pyOfString "m") (some 1) (Py.pyOfString "d")
      (Py.pyOfString "hi") (Py.pyOfString "ho") 2 2 (Or.inl (by decide)),
    dedup_record_then_check.2.2.1 [] 50 (Py.pyOfString "m") (some 1) (Py.pyOfString "d")
      (Py.pyOfString "hi") 2 (by decide),
    (dedup_record_then_check.2.2.2
      (MessageCacheService.cache_message [] 0 (Py.pyOfString "m") (some 1)
        (Py.pyOfString "d") (Py.pyOfString "hi") 2) 4000 (Py.pyOfString "m") (some 1)
      (Py.pyOfString "d") (Py.pyOfString "hi") 2
      { text := Py.pyOfString "hi", version := 2, processed_at := 0 }
      (by decide) (by decide)).1,
    (dedup_record_then_check.2.2.2
      (MessageCacheService.cache_message [] 0 (Py.pyOfString "m") (some 1)
        (Py.pyOfString "d") (Py.pyOfString "hi") 2) 4000 (Py.pyOfString "m") (some 1)
      (Py.pyOfString "d") (Py.pyOfString "hi") 2
      { text := Py.pyOfString "hi", version := 2, processed_at := 0 }
      (by decide) (by decide)).2⟩

/-- Counterexample to claim C4 as stated: with the empty string as the
variant, save_mapping skips indexing it and resolution of the variant yields
NotFound rather than the mapped name. -/
theorem resolve_empty_variant_counterexample :
    MappingService.find_name_by_device_id
      (MappingService.save_mapping MappingService.empty_mapping 0 (Py.pyOfString "m")
        (Py.pyOfString "a") (Py.pyOfString "n") [[]])
      (Py.pyOfString "m") [] = Except.ok none := by
  decide

/-- Witness for the amended claim C4 at concrete inputs. -/
theorem mapping_resolve_roundtrip_witness :
    MappingService.find_name_by_device_id
      (MappingService.save_mapping MappingService.empty_mapping 0 (Py.pyOfString "m")
        (Py.pyOfString "a") (Py.pyOfString "n") [Py.pyOfString "b"])
      (Py.pyOfString "m") (Py.pyOfString "b") = Except.ok (some (Py.pyOfString "n")) :=
  (mapping_resolve_roundtrip (Py.pyOfString "m") (Py.pyOfString "a") (Py.pyOfString "n")
    (Py.pyOfString "b") (by decide)).2.1

/-- Counterexample to claim C6 as stated: a mapping saved at time 0 has its
24-hour deadline at 86400, yet resolution (which consults no clock and runs
no eviction) still returns the name at any later query time, here 100000. -/
theorem expired_mapping_returned_counterexample :
    MappingService.find_name_by_device_id
      (MappingService.save_mapping MappingService.empty_mapping 0 (Py.pyOfString "m")
        (Py.pyOfString "a") (Py.pyOfString "Alice") [])
      (Py.pyOfString "m") (Py.pyOfString "a") = Except.ok (some (Py.pyOfString "Alice")) ∧
    PyDict.alookup
      (MappingService.save_mapping MappingService.empty_mapping 0 (Py.pyOfString "m")
        (Py.pyOfString "a") (Py.pyOfString "Alice") []).cleanup_times
      (Py.pyOfString "m") = some 86400 ∧
    (86400 : Int) < 100000 := by
  decide

/-- Witness for the amended claim C6: a duplicate verdict pins a live entry,
and a sweep at time 100000 evicts the meeting saved at time 0. -/
theorem ttl_reads_amended_witness :
    (∃ entry, MessageCacheService.cacheLookup
        (MessageCacheService.cache_message [] 0 (Py.pyOfString "m") (some 1)
          (Py.pyOfString "d") (Py.pyOfString "hi") 2)
        (Py.pyOfString "m")
        (MessageCacheService.get_cache_key (Py.pyOfString "m") (some 1) (Py.pyOfString "d")) =
          some entry ∧
      ¬(entry.processed_at + 3600 < 100)) ∧
    MappingService.find_name_by_device_id
      (MappingService.cleanup_expired
        (MappingService.save_mapping MappingService.empty_mapping 0 (Py.pyOfString "m")
          (Py.pyOfString "a") (Py.pyOfString "Alice") []) 100000)
      (Py.pyOfString "m") (Py.pyOfString "a") = Except.ok none :=
  ⟨ttl_reads_amended.1
      (MessageCacheService.cache_message [] 0 (Py.pyOfString "m") (some 1)
        (Py.pyOfString "d") (Py.pyOfString "hi") 2) 100 (Py.pyOfString "m") (some 1)
      (Py.pyOfString "d") (Py.pyOfString "hi") 2 (by decide),
    ttl_reads_amended.2
      (MappingService.save_mapping MappingService.empty_mapping 0 (Py.pyOfString "m")
        (Py.pyOfString "a") (Py.pyOfString "Alice") []) 100000 86400 (Py.pyOfString "m")
      (Py.pyOfString "a") (by decide) (by decide)⟩
